import Mathlib

/-!
# Verification of the pub/sub registry in `src/pubsub.js`

Shallow embedding of the single source file of `nem035/pub-sub-es6`.
The JavaScript class `PubSub` keeps a `Map` from topic names to arrays of
`Subscription` objects; the embedding models that map as an insertion-ordered
association list, JS function and symbol values by numeric identities, and JS
numbers (only used for `invocationsLeft`, where the default is `Infinity`) as
exact rationals extended with `Infinity`, `-Infinity` and `NaN`.  Each JS
method becomes a Lean function that returns the updated state together with
its result; a thrown `TypeError` becomes an `Except.error`.
`Array.prototype.forEach` is modelled exactly: the length is captured once at
the start and each index from `0` to `length - 1` is visited in the array as
it currently stands, indices past the current length being skipped — this
matters because `publish` mutates the very array it iterates.
-/

set_option maxHeartbeats 1000000

attribute [local semireducible] Rat.add Rat.sub Rat.mul Rat.inv Rat.ofScientific

/-! ## Definitions -/

/-- JavaScript numbers as the library uses them: a finite value (modelled as
an exact rational), `Infinity` (the default `invocationsLeft`), `-Infinity`,
or `NaN`.  The code only ever compares a number with `0` and `1` and
subtracts `1` from it; for these, exact rationals match double-precision
arithmetic throughout the integer-representable range, and the special values
follow IEEE semantics — in particular every ordering comparison involving
`NaN` is `false`. -/
inductive JNum where
  | fin (q : ℚ)
  | inf
  | negInf
  | nan
deriving DecidableEq, Repr

/-- `x < 1` on JS numbers: `Infinity < 1` is `false`, `-Infinity < 1` is
`true`, and `NaN < 1` is `false`. -/
def JNum.ltOne : JNum → Bool
  | .fin q => decide (q < 1)
  | .inf => false
  | .negInf => true
  | .nan => false

/-- `x >= 1` on JS numbers (`NaN >= 1` is `false`): not used by the code —
the constructor tests `!(x < 1)`, which differs from this exactly at `NaN` —
but needed to state the spec's phrase "a number ≥ 1". -/
def JNum.geOne : JNum → Bool
  | .fin q => decide (1 ≤ q)
  | .inf => true
  | .negInf => false
  | .nan => false

/-- `x > 0` on JS numbers: `Infinity > 0` is `true`, `-Infinity > 0` and
`NaN > 0` are `false`. -/
def JNum.gtZero : JNum → Bool
  | .fin q => decide (0 < q)
  | .inf => true
  | .negInf => false
  | .nan => false

/-- `x - 1` on JS numbers (`Infinity - 1` is `Infinity`, `-Infinity - 1` is
`-Infinity`, `NaN - 1` is `NaN`). -/
def JNum.dec : JNum → JNum
  | .fin q => .fin (q - 1)
  | .inf => .inf
  | .negInf => .negInf
  | .nan => .nan

/-- The JavaScript values that can reach the library's API surface: strings,
numbers, functions and symbols (both identified by the order of their
creation), and `undefined` standing for every other value (the code only ever
branches on `typeof`, so one representative suffices). -/
inductive JSVal where
  | str (s : String)
  | num (n : JNum)
  | fn (id : Nat)
  | sym (id : Nat)
  | undef
deriving DecidableEq, Repr

/-- A thrown JS exception: the `TypeError`s raised by the validation helpers,
or an arbitrary exception escaping a caller-supplied handler. -/
inductive JErr where
  | typeError (msg : String)
  | handlerThrew
deriving DecidableEq, Repr

instance {ε α : Type} [DecidableEq ε] [DecidableEq α] :
    DecidableEq (Except ε α) := fun x y =>
  match x, y with
  | .ok a, .ok b => decidable_of_iff (a = b) (by simp)
  | .error a, .error b => decidable_of_iff (a = b) (by simp)
  | .ok a, .error b => isFalse (fun h => Except.noConfusion h)
  | .error a, .ok b => isFalse (fun h => Except.noConfusion h)

/-- `_assertValidTopic` as a predicate:
`typeof topic === 'string' && topic.length !== 0`. -/
def validTopic : JSVal → Bool
  | .str s => decide (s.length ≠ 0)
  | _ => false

/-- `typeof handler === 'function'`. -/
def isFunctionVal : JSVal → Bool
  | .fn _ => true
  | _ => false

/-- `typeof symbol === 'symbol'` (checked by `_assertSymbol`). -/
def isSymbolVal : JSVal → Bool
  | .sym _ => true
  | _ => false

/-- `typeof invocationsLeft === 'number' && !(invocationsLeft < 1)`, the check
made by the `Subscription` constructor.  Note this is NOT "a number ≥ 1":
`NaN < 1` is `false`, so `NaN` passes the check even though `NaN >= 1` is
also `false`. -/
def validInvocations : JSVal → Bool
  | .num n => !n.ltOne
  | _ => false

/-- A `Subscription` object: the unique symbol returned to the subscriber, the
handler function (by identity), and the remaining invocation budget. -/
structure Subscription where
  symbol : Nat
  handler : Nat
  invocationsLeft : JNum
deriving DecidableEq, Repr

/-- The private `Map` from topic name to the array of subscriptions, as an
insertion-ordered association list (JS `Map` iterates in insertion order and
`Map.set` on an existing key keeps its position). -/
abbrev TopicMap := List (String × List Subscription)

/-- `Map.prototype.get`. -/
def mapGet (m : TopicMap) (t : String) : Option (List Subscription) :=
  match m with
  | [] => none
  | (k, v) :: rest => if k = t then some v else mapGet rest t

/-- `Map.prototype.set`: overwrite in place when the key exists, else append. -/
def mapSet (m : TopicMap) (t : String) (v : List Subscription) : TopicMap :=
  match m with
  | [] => [(t, v)]
  | (k, w) :: rest => if k = t then (k, v) :: rest else (k, w) :: mapSet rest t v

/-- The state of one `PubSub` instance: the topic map, plus a counter
supplying the identity of the next `Symbol(topic)` to be created (JS symbols
are globally fresh; the counter is how the model mints fresh ones). -/
structure PubSub where
  topics : TopicMap
  nextSym : Nat
deriving DecidableEq, Repr

/-- A freshly constructed `new PubSub()`. -/
def PubSub.empty : PubSub := ⟨[], 0⟩

/-- Lines 100–102 of `subscribe`: initialize an empty subscription array for
the topic when it has none. -/
def ensureTopic (r : PubSub) (t : String) : PubSub :=
  if (mapGet r.topics t).isSome then r
  else { r with topics := mapSet r.topics t [] }

/-- `PubSub.subscribe(topic, handler, invocationsLeft = Infinity)`.
Validation mirrors the source order: topic, then handler; then the topic's
array is created if absent and the symbol minted; only then does the
`Subscription` constructor validate `invocationsLeft` (so an invalid budget
still leaves the freshly created empty array behind).  Returns the updated
state and the new subscription's symbol, or the thrown `TypeError`. -/
def subscribe (r : PubSub) (topic handler invocationsLeft : JSVal) :
    PubSub × Except JErr Nat :=
  match topic with
  | .str t =>
    if t.length = 0 then (r, .error (.typeError "Topic must be a non empty string"))
    else
      match handler with
      | .fn h =>
        let r1 := ensureTopic r t
        let symbol := r1.nextSym
        let r2 : PubSub := { r1 with nextSym := symbol + 1 }
        match invocationsLeft with
        | .num n =>
          if n.ltOne then
            (r2, .error (.typeError "invocationsLeft must by a number > 0"))
          else
            ({ r2 with
                topics := mapSet r2.topics t
                  (((mapGet r2.topics t).getD []) ++ [⟨symbol, h, n⟩]) },
              .ok symbol)
        | _ => (r2, .error (.typeError "invocationsLeft must by a number > 0"))
      | _ => (r, .error (.typeError "Handler must be a function."))
  | _ => (r, .error (.typeError "Topic must be a non empty string"))

/-- `subscribe` with the `invocationsLeft` argument omitted (default
`Infinity`). -/
def subscribeDefault (r : PubSub) (topic handler : JSVal) : PubSub × Except JErr Nat :=
  subscribe r topic handler (.num .inf)

/-- The inner loop of `unsubscribeHandler` (lines 232–237): find the first
subscription whose `handler` is identical to `h` and splice it out; `none`
when no subscription matches. -/
def removeFirstHandler (subs : List Subscription) (h : Nat) :
    Option (List Subscription) :=
  match subs with
  | [] => none
  | s :: rest =>
    if s.handler = h then some rest
    else (removeFirstHandler rest h).map (s :: ·)

/-- The body of `unsubscribeHandler` after its argument assertions: the part
reached both from the public API and from `publish`'s exhausted-subscription
branch (where both arguments are always valid, the topic having been asserted
by `publish` and the handler coming from a stored `Subscription`). -/
def unsubscribeHandlerCore (r : PubSub) (t : String) (h : Nat) : PubSub × Bool :=
  match mapGet r.topics t with
  | none => (r, false)
  | some subs =>
    match removeFirstHandler subs h with
    | some subs2 => ({ r with topics := mapSet r.topics t subs2 }, true)
    | none => (r, false)

/-- `PubSub.unsubscribeHandler(topic, handler)` with its assertions. -/
def unsubscribeHandler (r : PubSub) (topic handler : JSVal) :
    PubSub × Except JErr Bool :=
  match topic with
  | .str t =>
    if t.length = 0 then (r, .error (.typeError "Topic must be a non empty string"))
    else
      match handler with
      | .fn h =>
        let p := unsubscribeHandlerCore r t h
        (p.1, .ok p.2)
      | _ => (r, .error (.typeError "Handler must be a function."))
  | _ => (r, .error (.typeError "Topic must be a non empty string"))

/-- The inner loop of `unsubscribeSymbol` over one topic's array: splice out
the first subscription carrying the symbol, `none` when absent. -/
def removeFirstSym (subs : List Subscription) (sym : Nat) :
    Option (List Subscription) :=
  match subs with
  | [] => none
  | s :: rest =>
    if s.symbol = sym then some rest
    else (removeFirstSym rest sym).map (s :: ·)

/-- The nested loops of `unsubscribeSymbol` (lines 195–204): scan the topic
arrays in map insertion order; in the first array holding a subscription with
the symbol, splice that subscription out and stop with `true`. -/
def unsubSymTopics (m : TopicMap) (sym : Nat) : TopicMap × Bool :=
  match m with
  | [] => ([], false)
  | (t, subs) :: rest =>
    match removeFirstSym subs sym with
    | some subs2 => ((t, subs2) :: rest, true)
    | none =>
      let p := unsubSymTopics rest sym
      ((t, subs) :: p.1, p.2)

/-- `PubSub.unsubscribeSymbol(symbol)` with its `_assertSymbol` check. -/
def unsubscribeSymbol (r : PubSub) (symbol : JSVal) : PubSub × Except JErr Bool :=
  match symbol with
  | .sym sym =>
    let p := unsubSymTopics r.topics sym
    ({ r with topics := p.1 }, .ok p.2)
  | _ => (r, .error (.typeError "Argument must be a symbol"))

/-- `PubSub.unsubscribe(...args)`: dispatch on the argument count. -/
def unsubscribe (r : PubSub) (args : List JSVal) : PubSub × Except JErr Bool :=
  match args with
  | [a] => unsubscribeSymbol r a
  | [a, b] => unsubscribeHandler r a b
  | _ => (r, .error (.typeError "Must pass 1 or 2 arguments"))

/-- One recorded handler invocation: which handler ran and the argument list
it received. -/
structure Call where
  handler : Nat
  args : List JSVal
deriving DecidableEq, Repr

/-- Result of the `forEach` pass inside `publish`: the state after the pass,
the invocations it performed in order, and the exception (if any) that
aborted it. -/
structure LoopOut where
  state : PubSub
  trace : List Call
  err : Option JErr
deriving Repr

/-- The `subscriptions.forEach(...)` pass of `publish` (lines 149–156).
`fuel` counts the indices still to visit out of the length captured when the
pass began, `k` is the current index.  Each step re-reads the topic's current
array (the JS callback closes over the live array object, which
`unsubscribeHandler` splices in place): an index at or past the current length
is skipped, as `forEach` skips deleted indices.  A live subscription's handler
is invoked (recorded in the trace, or aborting the pass when it throws) and
its budget then decremented in place; an exhausted one is removed via
`unsubscribeHandler`.  `throws h` says whether the handler with identity `h`
throws when invoked. -/
def publishLoop (throws : Nat → Bool) (t : String) (args : List JSVal) :
    Nat → Nat → PubSub → LoopOut
  | _, 0, r => ⟨r, [], none⟩
  | k, fuel + 1, r =>
    match ((mapGet r.topics t).getD [])[k]? with
    | none => publishLoop throws t args (k + 1) fuel r
    | some sub =>
      if sub.invocationsLeft.gtZero then
        if throws sub.handler then
          ⟨r, [⟨sub.handler, args⟩], some .handlerThrew⟩
        else
          let r2 : PubSub :=
            { r with
                topics := mapSet r.topics t
                  (((mapGet r.topics t).getD []).set k
                    { sub with invocationsLeft := sub.invocationsLeft.dec }) }
          let out := publishLoop throws t args (k + 1) fuel r2
          ⟨out.state, ⟨sub.handler, args⟩ :: out.trace, out.err⟩
      else
        publishLoop throws t args (k + 1) fuel (unsubscribeHandlerCore r t sub.handler).1

/-- Result of a `publish` call: the state afterwards, the returned boolean or
the exception that escaped, and the handler invocations performed. -/
structure PubOut where
  state : PubSub
  result : Except JErr Bool
  trace : List Call
deriving Repr

/-- `PubSub.publish(topic, ...args)` (lines 136–160): assert the topic, return
`false` when the topic has no array or an empty one, otherwise run the
`forEach` pass over the length captured at entry and return `true` (unless a
handler threw, in which case the exception propagates). -/
def publish (throws : Nat → Bool) (r : PubSub) (topic : JSVal)
    (args : List JSVal) : PubOut :=
  match topic with
  | .str t =>
    if t.length = 0 then
      ⟨r, .error (.typeError "Topic must be a non empty string"), []⟩
    else
      match mapGet r.topics t with
      | none => ⟨r, .ok false, []⟩
      | some subs =>
        if subs.length = 0 then ⟨r, .ok false, []⟩
        else
          let out := publishLoop throws t args 0 subs.length r
          match out.err with
          | none => ⟨out.state, .ok true, out.trace⟩
          | some e => ⟨out.state, .error e, out.trace⟩
  | _ => ⟨r, .error (.typeError "Topic must be a non empty string"), []⟩

/-- Handler behaviour in which no handler throws. -/
def noThrow : Nat → Bool := fun _ => false

/-- The effect of one live invocation on the subscription record. -/
def decSub (s : Subscription) : Subscription :=
  { s with invocationsLeft := s.invocationsLeft.dec }

/-- Budgets after a pass in which every subscription fired. -/
def decAll (subs : List Subscription) : List Subscription := subs.map decSub

/-- The number of subscriptions in one array carrying the symbol `sym`. -/
def symCountSubs (subs : List Subscription) (sym : Nat) : Nat :=
  subs.countP (fun s => s.symbol == sym)

/-- The number of subscriptions in the registry carrying the symbol `sym`. -/
def symCount (m : TopicMap) (sym : Nat) : Nat :=
  (m.map (fun e => symCountSubs e.2 sym)).sum

/-- The registry with every subscription carrying `sym` dropped (and nothing
else changed). -/
def filterOutSym (m : TopicMap) (sym : Nat) : TopicMap :=
  m.map (fun e => (e.1, e.2.filter (fun s => s.symbol != sym)))

/-- `P` holds for every subscription stored anywhere in the topic map. -/
def AllSubs (P : Subscription → Prop) (m : TopicMap) : Prop :=
  ∀ e ∈ m, ∀ s ∈ e.2, P s

/-- The budget of a stored subscription is `Infinity`, `NaN` (accepted by the
constructor because `NaN < 1` is `false`), or a finite value strictly greater
than `-1`: budgets enter at `≥ 1`, are decremented by `1` only while still
positive, and so can end at `0` or at a fractional value in `(-1, 0)` (for
example a budget of `3/2` is stored as `-1/2` after its second firing), but
never at `-1` or below. -/
def BudgetOk (s : Subscription) : Prop :=
  s.invocationsLeft = .inf ∨ s.invocationsLeft = .nan ∨
    ∃ q : ℚ, s.invocationsLeft = .fin q ∧ -1 < q

/-- The states a `PubSub` instance can be driven to through its API. -/
inductive Reach : PubSub → Prop where
  | init : Reach PubSub.empty
  | sub (r : PubSub) (topic handler invLeft : JSVal) (h : Reach r) :
      Reach (subscribe r topic handler invLeft).1
  | pub (r : PubSub) (throws : Nat → Bool) (topic : JSVal) (args : List JSVal)
      (h : Reach r) : Reach (publish throws r topic args).state
  | unsub (r : PubSub) (args : List JSVal) (h : Reach r) :
      Reach (unsubscribe r args).1

/-- `m2` is `m` with exactly one subscription removed from one topic's array:
every other topic entry, and every other subscription of the affected topic
(in the same relative order), is untouched. -/
def RemovesOne (m m2 : TopicMap) : Prop :=
  ∃ ps qs t pre s post, m = ps ++ (t, pre ++ s :: post) :: qs ∧
    m2 = ps ++ (t, pre ++ post) :: qs

/-- `subscribe('a', h0, 1)` on a fresh instance (handler identity `0`). -/
def rA1 : PubSub := (subscribe PubSub.empty (.str "a") (.fn 0) (.num (.fin 1))).1

/-- then `subscribe('a', h1, 2)` (handler identity `1`). -/
def rA2 : PubSub := (subscribe rA1 (.str "a") (.fn 1) (.num (.fin 2))).1

/-- the first `publish('a', 42)`. -/
def pubA1 : PubOut := publish noThrow rA2 (.str "a") [.num (.fin 42)]

/-- the state after the first publish. -/
def rA3 : PubSub := pubA1.state

/-- the second `publish('a', 42)`. -/
def pubA2 : PubOut := publish noThrow rA3 (.str "a") [.num (.fin 42)]

/-- `subscribe('b', h7)` (unbounded) on a fresh instance. -/
def rB1 : PubSub := (subscribe PubSub.empty (.str "b") (.fn 7) (.num .inf)).1

/-- then `subscribe('b', h7, 1)`: the same handler again, budget 1. -/
def rB2 : PubSub := (subscribe rB1 (.str "b") (.fn 7) (.num (.fin 1))).1

/-- the first `publish('b')`. -/
def pubB1 : PubOut := publish noThrow rB2 (.str "b") []

/-- the state after the first publish on `'b'`. -/
def rB3 : PubSub := pubB1.state

/-- the second `publish('b')`. -/
def pubB2 : PubOut := publish noThrow rB3 (.str "b") []

/-- Handler behaviour for the C9 witness: only handler `9` throws. -/
def throwsNine : Nat → Bool := fun n => n == 9

/-- Registry for the C9 witness: topic `'t'` with a live prefix, a throwing
live subscription, and a successor that must not run. -/
def rC : PubSub := ⟨[("t", [⟨0, 5, .fin 2⟩, ⟨1, 9, .inf⟩, ⟨2, 6, .fin 1⟩])], 3⟩

/-- Registry for the C5 witness: topic `'d'` holds a non-matching
subscription, then two still-active subscriptions of handler `7`, then an
exhausted third duplicate of handler `7`; a second topic checks the frame. -/
def rD : PubSub :=
  ⟨[("d", [⟨0, 3, .fin 5⟩, ⟨1, 7, .inf⟩, ⟨2, 7, .fin 4⟩, ⟨3, 7, .fin 0⟩]),
    ("e2", [⟨4, 8, .inf⟩])], 5⟩

/-- `subscribe('e', h4, 1.5)` on a fresh instance: a fractional budget is a
JS number not below `1` and is accepted. -/
def rE1 : PubSub :=
  (subscribe PubSub.empty (.str "e") (.fn 4) (.num (.fin (3/2)))).1

/-- the first `publish('e')`: the budget becomes `1/2`. -/
def pubE1 : PubOut := publish noThrow rE1 (.str "e") []

/-- the state after the first publish on `'e'`. -/
def rE2 : PubSub := pubE1.state

/-- the second `publish('e')`: `1/2 > 0`, so the handler fires again and the
stored budget becomes `-1/2`. -/
def pubE2 : PubOut := publish noThrow rE2 (.str "e") []

/-- the state after the second publish on `'e'`: a present subscription with
a negative counter. -/
def rE3 : PubSub := pubE2.state

/-! ## Theorems -/

theorem mapGet_mapSet_self (m : TopicMap) (t : String) (v : List Subscription) :
    mapGet (mapSet m t v) t = some v := by
  induction m with
  | nil => simp [mapGet, mapSet]
  | cons e rest ih =>
    obtain ⟨k, w⟩ := e
    by_cases hk : k = t <;> simp [mapGet, mapSet, hk, ih]

theorem mapGet_mapSet_ne (m : TopicMap) (t t2 : String) (v : List Subscription)
    (h : t2 ≠ t) : mapGet (mapSet m t v) t2 = mapGet m t2 := by
  have hne : t ≠ t2 := fun hh => h hh.symm
  induction m with
  | nil => simp [mapGet, mapSet, hne]
  | cons e rest ih =>
    obtain ⟨k, w⟩ := e
    by_cases hk : k = t
    · subst hk
      simp [mapGet, mapSet, hne]
    · simp [mapGet, mapSet, hk, ih]

theorem mapSet_same (m : TopicMap) (t : String) (v : List Subscription)
    (h : mapGet m t = some v) : mapSet m t v = m := by
  induction m with
  | nil => simp [mapGet] at h
  | cons e rest ih =>
    obtain ⟨k, w⟩ := e
    by_cases hk : k = t
    · subst hk
      simp [mapGet] at h
      simp [mapSet, h]
    · simp [mapGet, hk] at h
      simp [mapSet, hk, ih h]

theorem mapSet_mapSet (m : TopicMap) (t : String) (v w : List Subscription) :
    mapSet (mapSet m t v) t w = mapSet m t w := by
  induction m with
  | nil => simp [mapSet]
  | cons e rest ih =>
    obtain ⟨k, u⟩ := e
    by_cases hk : k = t <;> simp [mapSet, hk, ih]

/-- A key present in the map splits it into the entries before it (with other
keys), the entry itself, and the entries after; `mapSet` rewrites exactly the
middle entry. -/
theorem mapGet_split (m : TopicMap) (t : String) (subs : List Subscription)
    (h : mapGet m t = some subs) :
    ∃ ps qs, m = ps ++ (t, subs) :: qs ∧ (∀ e ∈ ps, e.1 ≠ t) ∧
      ∀ v, mapSet m t v = ps ++ (t, v) :: qs := by
  induction m with
  | nil => simp [mapGet] at h
  | cons e rest ih =>
    obtain ⟨k, w⟩ := e
    by_cases hk : k = t
    · subst hk
      simp [mapGet] at h
      refine ⟨[], rest, by simp [h], by simp, ?_⟩
      intro v
      simp [mapSet]
    · simp [mapGet, hk] at h
      obtain ⟨ps, qs, hm, hps, hset⟩ := ih h
      refine ⟨(k, w) :: ps, qs, by simp [hm], ?_, ?_⟩
      · intro e he
        rcases List.mem_cons.mp he with he | he
        · simpa [he] using hk
        · exact hps e he
      · intro v
        simp [mapSet, hk, hset v]

theorem removeFirstHandler_eq_none (subs : List Subscription) (h : Nat) :
    removeFirstHandler subs h = none ↔ ∀ s ∈ subs, s.handler ≠ h := by
  induction subs with
  | nil => simp [removeFirstHandler]
  | cons s rest ih =>
    by_cases hs : s.handler = h <;> simp [removeFirstHandler, hs, ih]

theorem removeFirstHandler_eq_some (subs subs2 : List Subscription) (h : Nat)
    (he : removeFirstHandler subs h = some subs2) :
    ∃ pre s post, subs = pre ++ s :: post ∧ subs2 = pre ++ post ∧
      s.handler = h ∧ ∀ x ∈ pre, x.handler ≠ h := by
  induction subs generalizing subs2 with
  | nil => simp [removeFirstHandler] at he
  | cons s rest ih =>
    by_cases hs : s.handler = h
    · simp [removeFirstHandler, hs] at he
      exact ⟨[], s, rest, by simp, by simp [he.symm], hs, by simp⟩
    · simp [removeFirstHandler, hs] at he
      obtain ⟨subs3, h3, rfl⟩ := he
      obtain ⟨pre, x, post, hr, hs2, hx, hpre⟩ := ih subs3 h3
      refine ⟨s :: pre, x, post, by simp [hr], by simp [hs2], hx, ?_⟩
      intro y hy
      rcases List.mem_cons.mp hy with hy | hy
      · simpa [hy] using hs
      · exact hpre y hy

theorem removeFirstHandler_of_first (pre : List Subscription) (s : Subscription)
    (post : List Subscription) (h : Nat) (hs : s.handler = h)
    (hpre : ∀ x ∈ pre, x.handler ≠ h) :
    removeFirstHandler (pre ++ s :: post) h = some (pre ++ post) := by
  induction pre with
  | nil => simp [removeFirstHandler, hs]
  | cons x rest ih =>
    have hx : x.handler ≠ h := hpre x (by simp)
    have := ih fun y hy => hpre y (List.mem_cons_of_mem x hy)
    simp [removeFirstHandler, hx, this]

theorem removeFirstSym_eq_none (subs : List Subscription) (sym : Nat) :
    removeFirstSym subs sym = none ↔ ∀ s ∈ subs, s.symbol ≠ sym := by
  induction subs with
  | nil => simp [removeFirstSym]
  | cons s rest ih =>
    by_cases hs : s.symbol = sym <;> simp [removeFirstSym, hs, ih]

theorem removeFirstSym_eq_some (subs subs2 : List Subscription) (sym : Nat)
    (he : removeFirstSym subs sym = some subs2) :
    ∃ pre s post, subs = pre ++ s :: post ∧ subs2 = pre ++ post ∧
      s.symbol = sym ∧ ∀ x ∈ pre, x.symbol ≠ sym := by
  induction subs generalizing subs2 with
  | nil => simp [removeFirstSym] at he
  | cons s rest ih =>
    by_cases hs : s.symbol = sym
    · simp [removeFirstSym, hs] at he
      exact ⟨[], s, rest, by simp, by simp [he.symm], hs, by simp⟩
    · simp [removeFirstSym, hs] at he
      obtain ⟨subs3, h3, rfl⟩ := he
      obtain ⟨pre, x, post, hr, hs2, hx, hpre⟩ := ih subs3 h3
      refine ⟨s :: pre, x, post, by simp [hr], by simp [hs2], hx, ?_⟩
      intro y hy
      rcases List.mem_cons.mp hy with hy | hy
      · simpa [hy] using hs
      · exact hpre y hy

/-- Whatever a splice keeps was already in the array. -/
theorem mem_of_mem_removeFirstHandler {subs subs2 : List Subscription} {h : Nat}
    (he : removeFirstHandler subs h = some subs2) :
    ∀ x ∈ subs2, x ∈ subs := by
  obtain ⟨pre, s, post, rfl, rfl, -, -⟩ := removeFirstHandler_eq_some _ _ _ he
  intro x hx
  rcases List.mem_append.mp hx with hx | hx
  · exact List.mem_append.mpr (Or.inl hx)
  · exact List.mem_append.mpr (Or.inr (List.mem_cons_of_mem s hx))

theorem mem_of_mem_removeFirstSym {subs subs2 : List Subscription} {sym : Nat}
    (he : removeFirstSym subs sym = some subs2) :
    ∀ x ∈ subs2, x ∈ subs := by
  obtain ⟨pre, s, post, rfl, rfl, -, -⟩ := removeFirstSym_eq_some _ _ _ he
  intro x hx
  rcases List.mem_append.mp hx with hx | hx
  · exact List.mem_append.mpr (Or.inl hx)
  · exact List.mem_append.mpr (Or.inr (List.mem_cons_of_mem s hx))

theorem getQ_append_length (pre : List Subscription) (s : Subscription)
    (post : List Subscription) :
    (pre ++ s :: post)[pre.length]? = some s := by
  induction pre with
  | nil => simp
  | cons y rest ih => simpa using ih

theorem set_append_length (pre : List Subscription) (s x : Subscription)
    (post : List Subscription) :
    (pre ++ s :: post).set pre.length x = pre ++ x :: post := by
  induction pre with
  | nil => rfl
  | cons y rest ih => simp [List.set, ih]

/-- Unfolding of one `forEach` step. -/
theorem publishLoop_succ (throws : Nat → Bool) (t : String) (args : List JSVal)
    (k fuel : Nat) (r : PubSub) :
    publishLoop throws t args k (fuel + 1) r =
      (match ((mapGet r.topics t).getD [])[k]? with
      | none => publishLoop throws t args (k + 1) fuel r
      | some sub =>
        if sub.invocationsLeft.gtZero then
          if throws sub.handler then ⟨r, [⟨sub.handler, args⟩], some .handlerThrew⟩
          else
            let r2 : PubSub :=
              { r with
                  topics := mapSet r.topics t
                    (((mapGet r.topics t).getD []).set k
                      { sub with invocationsLeft := sub.invocationsLeft.dec }) }
            let out := publishLoop throws t args (k + 1) fuel r2
            ⟨out.state, ⟨sub.handler, args⟩ :: out.trace, out.err⟩
        else
          publishLoop throws t args (k + 1) fuel (unsubscribeHandlerCore r t sub.handler).1) := rfl

/-- `forEach` skips an index past the current length of the array. -/
theorem publishLoop_step_skip (throws : Nat → Bool) (t : String) (args : List JSVal)
    (k fuel : Nat) (r : PubSub)
    (h : ((mapGet r.topics t).getD [])[k]? = none) :
    publishLoop throws t args k (fuel + 1) r =
      publishLoop throws t args (k + 1) fuel r := by
  rw [publishLoop_succ, h]

/-- `forEach` step on an exhausted subscription: remove by handler, do not
invoke. -/
theorem publishLoop_step_exhausted (throws : Nat → Bool) (t : String)
    (args : List JSVal) (k fuel : Nat) (r : PubSub) (sub : Subscription)
    (h : ((mapGet r.topics t).getD [])[k]? = some sub)
    (hz : sub.invocationsLeft.gtZero = false) :
    publishLoop throws t args k (fuel + 1) r =
      publishLoop throws t args (k + 1) fuel (unsubscribeHandlerCore r t sub.handler).1 := by
  rw [publishLoop_succ, h]
  simp [hz]

/-- `forEach` step on a live subscription whose handler returns normally:
invoke, then decrement in place (`r2` is the state with the decrement
applied). -/
theorem publishLoop_step_live (throws : Nat → Bool) (t : String)
    (args : List JSVal) (k fuel : Nat) (r r2 : PubSub) (sub : Subscription)
    (h : ((mapGet r.topics t).getD [])[k]? = some sub)
    (hp : sub.invocationsLeft.gtZero = true) (ht2 : throws sub.handler = false)
    (hr2 : r2.topics = mapSet r.topics t
      (((mapGet r.topics t).getD []).set k
        { sub with invocationsLeft := sub.invocationsLeft.dec }))
    (hr2n : r2.nextSym = r.nextSym) :
    publishLoop throws t args k (fuel + 1) r =
      ⟨(publishLoop throws t args (k + 1) fuel r2).state,
        ⟨sub.handler, args⟩ :: (publishLoop throws t args (k + 1) fuel r2).trace,
        (publishLoop throws t args (k + 1) fuel r2).err⟩ := by
  have hr2eq : r2 =
      ⟨mapSet r.topics t
          (((mapGet r.topics t).getD []).set k
            { sub with invocationsLeft := sub.invocationsLeft.dec }),
        r.nextSym⟩ := by
    obtain ⟨m2, n2⟩ := r2
    simp only at hr2 hr2n
    simp [hr2, hr2n]
  rw [publishLoop_succ, h, hr2eq]
  simp [hp, ht2]

/-- `forEach` step on a live subscription whose handler throws: the call is
made, nothing is decremented, and the pass aborts. -/
theorem publishLoop_step_throws (throws : Nat → Bool) (t : String)
    (args : List JSVal) (k fuel : Nat) (r : PubSub) (sub : Subscription)
    (h : ((mapGet r.topics t).getD [])[k]? = some sub)
    (hp : sub.invocationsLeft.gtZero = true) (ht2 : throws sub.handler = true) :
    publishLoop throws t args k (fuel + 1) r =
      ⟨r, [⟨sub.handler, args⟩], some .handlerThrew⟩ := by
  rw [publishLoop_succ, h]
  simp [hp, ht2]

/-- A pass over subscriptions that are all live and whose handlers do not
throw: every handler runs once, in order, with the published arguments, and
each budget is decremented in place. -/
theorem publishLoop_active (throws : Nat → Bool) (t : String) (args : List JSVal) :
    ∀ (todo done : List Subscription) (r : PubSub),
      mapGet r.topics t = some (done ++ todo) →
      (∀ s ∈ todo, s.invocationsLeft.gtZero = true) →
      (∀ s ∈ todo, throws s.handler = false) →
      publishLoop throws t args done.length todo.length r =
        ⟨{ r with topics := mapSet r.topics t (done ++ decAll todo) },
          todo.map (fun s => ⟨s.handler, args⟩), none⟩ := by
  intro todo
  induction todo with
  | nil =>
    intro done r hget hpos hthr
    have hm : mapSet r.topics t (done ++ decAll []) = r.topics := by
      simpa [decAll] using mapSet_same _ _ _ (by simpa using hget)
    obtain ⟨m, ns⟩ := r
    simp only [publishLoop, List.length_nil, List.map_nil]
    simp only [hm]
  | cons s rest ih =>
    intro done r hget hpos hthr
    have hsubs : (mapGet r.topics t).getD [] = done ++ s :: rest := by
      simp [hget]
    have hq : ((mapGet r.topics t).getD [])[done.length]? = some s := by
      rw [hsubs]
      exact getQ_append_length done s rest
    have htop : mapSet r.topics t (done ++ decSub s :: rest) =
        mapSet r.topics t (((mapGet r.topics t).getD []).set done.length
          { s with invocationsLeft := s.invocationsLeft.dec }) := by
      rw [hsubs]
      rw [show ({ s with invocationsLeft := s.invocationsLeft.dec } : Subscription) = decSub s from rfl]
      rw [set_append_length done s (decSub s) rest]
    have hstep := publishLoop_step_live throws t args done.length rest.length r
      ⟨mapSet r.topics t (done ++ decSub s :: rest), r.nextSym⟩ s hq
      (hpos s (by simp)) (hthr s (by simp)) htop rfl
    have h1 : mapGet
        ((⟨mapSet r.topics t (done ++ decSub s :: rest), r.nextSym⟩ : PubSub)).topics t =
        some ((done ++ [decSub s]) ++ rest) := by
      show mapGet (mapSet r.topics t (done ++ decSub s :: rest)) t = _
      rw [mapGet_mapSet_self]
      simp
    have h2 := ih (done ++ [decSub s])
      ⟨mapSet r.topics t (done ++ decSub s :: rest), r.nextSym⟩ h1
      (fun x hx => hpos x (by simp [hx]))
      (fun x hx => hthr x (by simp [hx]))
    have hlen : (done ++ [decSub s]).length = done.length + 1 := by simp
    rw [hlen] at h2
    simp only [List.length_cons]
    rw [hstep, h2]
    show (⟨_, _, _⟩ : LoopOut) = _
    simp [mapSet_mapSet, decAll, decSub]

/-- A pass whose live prefix is followed by a live subscription with a
throwing handler: the prefix fires and is decremented, the throwing handler is
called, and the pass aborts with the exception — the throwing subscription's
budget is not decremented and nothing after it runs. -/
theorem publishLoop_throw (throws : Nat → Bool) (t : String) (args : List JSVal)
    (s : Subscription) (post : List Subscription)
    (hsp : s.invocationsLeft.gtZero = true) (hst : throws s.handler = true) :
    ∀ (todo done : List Subscription) (r : PubSub),
      mapGet r.topics t = some (done ++ todo ++ s :: post) →
      (∀ x ∈ todo, x.invocationsLeft.gtZero = true) →
      (∀ x ∈ todo, throws x.handler = false) →
      publishLoop throws t args done.length (todo ++ s :: post).length r =
        ⟨{ r with topics := mapSet r.topics t (done ++ decAll todo ++ s :: post) },
          todo.map (fun x => ⟨x.handler, args⟩) ++ [⟨s.handler, args⟩],
          some .handlerThrew⟩ := by
  intro todo
  induction todo with
  | nil =>
    intro done r hget hpos hthr
    have hsubs : (mapGet r.topics t).getD [] = done ++ s :: post := by
      simp [hget]
    have hq : ((mapGet r.topics t).getD [])[done.length]? = some s := by
      rw [hsubs]
      exact getQ_append_length done s post
    simp only [List.nil_append, List.length_cons]
    rw [publishLoop_step_throws throws t args done.length post.length r s hq hsp hst]
    have hm : mapSet r.topics t (done ++ s :: post) = r.topics := by
      apply mapSet_same
      simpa using hget
    obtain ⟨m, ns⟩ := r
    simp only at hm
    simp [decAll, hm]
  | cons x rest ih =>
    intro done r hget hpos hthr
    have hsubs : (mapGet r.topics t).getD [] = done ++ x :: (rest ++ s :: post) := by
      simp [hget]
    have hq : ((mapGet r.topics t).getD [])[done.length]? = some x := by
      rw [hsubs]
      exact getQ_append_length done x (rest ++ s :: post)
    have htop : mapSet r.topics t (done ++ decSub x :: (rest ++ s :: post)) =
        mapSet r.topics t (((mapGet r.topics t).getD []).set done.length
          { x with invocationsLeft := x.invocationsLeft.dec }) := by
      rw [hsubs]
      rw [show ({ x with invocationsLeft := x.invocationsLeft.dec } : Subscription) = decSub x from rfl]
      rw [set_append_length done x (decSub x) (rest ++ s :: post)]
    have hstep := publishLoop_step_live throws t args done.length (rest ++ s :: post).length r
      ⟨mapSet r.topics t (done ++ decSub x :: (rest ++ s :: post)), r.nextSym⟩ x hq
      (hpos x (by simp)) (hthr x (by simp)) htop rfl
    have h1 : mapGet
        ((⟨mapSet r.topics t (done ++ decSub x :: (rest ++ s :: post)), r.nextSym⟩ :
          PubSub)).topics t =
        some ((done ++ [decSub x]) ++ rest ++ s :: post) := by
      show mapGet (mapSet r.topics t _) t = _
      rw [mapGet_mapSet_self]
      simp
    have h2 := ih (done ++ [decSub x])
      ⟨mapSet r.topics t (done ++ decSub x :: (rest ++ s :: post)), r.nextSym⟩ h1
      (fun y hy => hpos y (by simp [hy]))
      (fun y hy => hthr y (by simp [hy]))
    have hlen : (done ++ [decSub x]).length = done.length + 1 := by simp
    rw [hlen] at h2
    simp only [List.cons_append, List.length_cons]
    rw [hstep, h2]
    show (⟨_, _, _⟩ : LoopOut) = _
    simp [mapSet_mapSet, decAll, decSub]

/-- When no handler throws, the pass never raises. -/
theorem publishLoop_noThrow_err (t : String) (args : List JSVal) :
    ∀ (fuel k : Nat) (r : PubSub),
      (publishLoop noThrow t args k fuel r).err = none := by
  intro fuel
  induction fuel with
  | zero => intro k r; rfl
  | succ fuel ih =>
    intro k r
    cases hq : ((mapGet r.topics t).getD [])[k]? with
    | none =>
      rw [publishLoop_step_skip noThrow t args k fuel r hq]
      exact ih _ _
    | some sub =>
      by_cases hp : sub.invocationsLeft.gtZero = true
      · rw [publishLoop_step_live noThrow t args k fuel r
          ⟨mapSet r.topics t (((mapGet r.topics t).getD []).set k
            { sub with invocationsLeft := sub.invocationsLeft.dec }), r.nextSym⟩
          sub hq hp rfl rfl rfl]
        exact ih _ _
      · rw [publishLoop_step_exhausted noThrow t args k fuel r sub hq (by simpa using hp)]
        exact ih _ _

/-- Whatever the exhausted-branch removal keeps in the topic's array was
already there. -/
theorem unsubscribeHandlerCore_subset (r : PubSub) (t : String) (h : Nat) :
    ∀ x ∈ (mapGet (unsubscribeHandlerCore r t h).1.topics t).getD [],
      x ∈ (mapGet r.topics t).getD [] := by
  cases hg : mapGet r.topics t with
  | none => simp [unsubscribeHandlerCore, hg]
  | some subs =>
    cases hr : removeFirstHandler subs h with
    | none => simp [unsubscribeHandlerCore, hg, hr]
    | some subs2 =>
      simp only [unsubscribeHandlerCore, hg, hr, mapGet_mapSet_self, Option.getD_some]
      exact fun x hx => mem_of_mem_removeFirstHandler hr x hx

/-- A pass over an array whose subscriptions are all exhausted performs no
invocation and raises nothing (it only removes). -/
theorem publishLoop_allExhausted (throws : Nat → Bool) (t : String)
    (args : List JSVal) :
    ∀ (fuel k : Nat) (r : PubSub),
      (∀ x ∈ (mapGet r.topics t).getD [], x.invocationsLeft.gtZero = false) →
      (publishLoop throws t args k fuel r).trace = [] ∧
        (publishLoop throws t args k fuel r).err = none := by
  intro fuel
  induction fuel with
  | zero => intro k r hex; exact ⟨rfl, rfl⟩
  | succ fuel ih =>
    intro k r hex
    cases hq : ((mapGet r.topics t).getD [])[k]? with
    | none =>
      rw [publishLoop_step_skip throws t args k fuel r hq]
      exact ih _ _ hex
    | some sub =>
      have hmem : sub ∈ (mapGet r.topics t).getD [] := by
        exact List.getElem?_mem hq
      have hz : sub.invocationsLeft.gtZero = false := hex sub hmem
      rw [publishLoop_step_exhausted throws t args k fuel r sub hq hz]
      refine ih _ _ ?_
      intro x hx
      exact hex x (unsubscribeHandlerCore_subset r t sub.handler x hx)

/-- `publish` on a topic whose subscriptions are all live (and whose handlers
return normally): returns `true`, invokes every handler once in registration
order with the arguments unchanged, and decrements every budget in place. -/
theorem publish_active (throws : Nat → Bool) (t : String) (args : List JSVal)
    (r : PubSub) (subs : List Subscription) (ht : t.length ≠ 0)
    (hget : mapGet r.topics t = some subs) (hne : subs ≠ [])
    (hpos : ∀ s ∈ subs, s.invocationsLeft.gtZero = true)
    (hthr : ∀ s ∈ subs, throws s.handler = false) :
    publish throws r (.str t) args =
      ⟨{ r with topics := mapSet r.topics t (decAll subs) }, .ok true,
        subs.map (fun s => ⟨s.handler, args⟩)⟩ := by
  have h := publishLoop_active throws t args subs [] r (by simpa using hget) hpos hthr
  simp only [List.length_nil, List.nil_append] at h
  have hlen : ¬subs.length = 0 := fun hl => hne (List.length_eq_zero.mp hl)
  simp [publish, ht, hget, hlen, h]

/-- `publish` when nobody is registered for the topic: `false`, no effect. -/
theorem publish_no_subscribers (throws : Nat → Bool) (t : String)
    (args : List JSVal) (r : PubSub) (ht : t.length ≠ 0)
    (hget : mapGet r.topics t = none ∨ mapGet r.topics t = some []) :
    publish throws r (.str t) args = ⟨r, .ok false, []⟩ := by
  rcases hget with hget | hget <;> simp [publish, ht, hget]

/-- `publish` never returns `false` when the topic had a nonempty array. -/
theorem publish_not_ok_false (throws : Nat → Bool) (t : String)
    (args : List JSVal) (r : PubSub) (subs : List Subscription)
    (ht : t.length ≠ 0) (hget : mapGet r.topics t = some subs) (hne : subs ≠ []) :
    (publish throws r (.str t) args).result ≠ .ok false := by
  have hlen : ¬subs.length = 0 := fun hl => hne (List.length_eq_zero.mp hl)
  simp only [publish, ht, hget, hlen]
  cases herr : (publishLoop throws t args 0 subs.length r).err with
  | none => simp [herr]
  | some e => simp [herr]

/-- `publish` with subscribers present and no handler throwing returns
`true`. -/
theorem publish_present_true (t : String) (args : List JSVal) (r : PubSub)
    (subs : List Subscription) (ht : t.length ≠ 0)
    (hget : mapGet r.topics t = some subs) (hne : subs ≠ []) :
    (publish noThrow r (.str t) args).result = .ok true := by
  have hlen : ¬subs.length = 0 := fun hl => hne (List.length_eq_zero.mp hl)
  have herr := publishLoop_noThrow_err t args subs.length 0 r
  simp [publish, ht, hget, hlen, herr]

/-- `publish` with only exhausted subscribers present: still `true`, and no
handler runs. -/
theorem publish_exhausted_true (throws : Nat → Bool) (t : String)
    (args : List JSVal) (r : PubSub) (subs : List Subscription)
    (ht : t.length ≠ 0) (hget : mapGet r.topics t = some subs) (hne : subs ≠ [])
    (hex : ∀ s ∈ subs, s.invocationsLeft.gtZero = false) :
    (publish throws r (.str t) args).result = .ok true ∧
      (publish throws r (.str t) args).trace = [] := by
  have hlen : ¬subs.length = 0 := fun hl => hne (List.length_eq_zero.mp hl)
  obtain ⟨htr, herr⟩ := publishLoop_allExhausted throws t args subs.length 0 r
    (by simpa [hget] using hex)
  constructor
  · simp [publish, ht, hget, hlen, herr]
  · simp [publish, ht, hget, hlen, herr, htr]

/-- Successful removal by topic and handler: the first subscription whose
handler matches is spliced out. -/
theorem unsubscribeHandler_first (r : PubSub) (t : String) (h : Nat)
    (pre post : List Subscription) (s : Subscription) (ht : t.length ≠ 0)
    (hget : mapGet r.topics t = some (pre ++ s :: post))
    (hs : s.handler = h) (hpre : ∀ x ∈ pre, x.handler ≠ h) :
    unsubscribeHandler r (.str t) (.fn h) =
      ({ r with topics := mapSet r.topics t (pre ++ post) }, .ok true) := by
  have hrem := removeFirstHandler_of_first pre s post h hs hpre
  simp [unsubscribeHandler, ht, unsubscribeHandlerCore, hget, hrem]

/-- Removal by topic and handler with no matching subscription: `false` and
no state change. -/
theorem unsubscribeHandler_noMatch (r : PubSub) (t : String) (h : Nat)
    (subs : List Subscription) (ht : t.length ≠ 0)
    (hget : mapGet r.topics t = some subs)
    (hnm : ∀ x ∈ subs, x.handler ≠ h) :
    unsubscribeHandler r (.str t) (.fn h) = (r, .ok false) := by
  have hrem : removeFirstHandler subs h = none :=
    (removeFirstHandler_eq_none subs h).mpr hnm
  simp [unsubscribeHandler, ht, unsubscribeHandlerCore, hget, hrem]

/-- Removal by topic and handler when the topic has no array: `false` and no
state change. -/
theorem unsubscribeHandler_noTopic (r : PubSub) (t : String) (h : Nat)
    (ht : t.length ≠ 0) (hget : mapGet r.topics t = none) :
    unsubscribeHandler r (.str t) (.fn h) = (r, .ok false) := by
  simp [unsubscribeHandler, ht, unsubscribeHandlerCore, hget]

theorem filterOutSym_cons (t : String) (subs : List Subscription)
    (rest : TopicMap) (sym : Nat) :
    filterOutSym ((t, subs) :: rest) sym =
      (t, subs.filter (fun s => s.symbol != sym)) :: filterOutSym rest sym := rfl

theorem removeFirstSym_of_countZero (subs : List Subscription) (sym : Nat)
    (h : symCountSubs subs sym = 0) :
    removeFirstSym subs sym = none ∧
      subs.filter (fun s => s.symbol != sym) = subs := by
  have hall : ∀ s ∈ subs, ¬(s.symbol == sym) = true :=
    List.countP_eq_zero.mp h
  constructor
  · exact (removeFirstSym_eq_none subs sym).mpr
      (fun s hs => by simpa using hall s hs)
  · exact List.filter_eq_self.mpr (fun s hs => by simpa using hall s hs)

theorem removeFirstSym_of_countOne (subs : List Subscription) (sym : Nat)
    (h : symCountSubs subs sym = 1) :
    removeFirstSym subs sym = some (subs.filter (fun s => s.symbol != sym)) := by
  induction subs with
  | nil => simp [symCountSubs] at h
  | cons s rest ih =>
    by_cases hs : s.symbol = sym
    · have hrest : symCountSubs rest sym = 0 := by
        have h2 := h
        simp [symCountSubs, List.countP_cons, hs] at h2
        simpa [symCountSubs] using h2
      have hfil := (removeFirstSym_of_countZero rest sym hrest).2
      simp [removeFirstSym, hs, List.filter_cons, hfil]
    · have hrest : symCountSubs rest sym = 1 := by
        simpa [symCountSubs, List.countP_cons, hs] using h
      simp [removeFirstSym, hs, List.filter_cons, ih hrest]

theorem symCount_cons (t : String) (subs : List Subscription) (m : TopicMap)
    (sym : Nat) :
    symCount ((t, subs) :: m) sym = symCountSubs subs sym + symCount m sym := by
  simp [symCount]

/-- When the symbol is nowhere, the scan finds nothing and changes nothing,
and the filtered registry is the registry itself. -/
theorem unsubSymTopics_countZero (sym : Nat) :
    ∀ m : TopicMap, symCount m sym = 0 →
      unsubSymTopics m sym = (m, false) ∧ filterOutSym m sym = m := by
  intro m
  induction m with
  | nil => intro h; simp [unsubSymTopics, filterOutSym]
  | cons e rest ih =>
    intro h
    obtain ⟨t, subs⟩ := e
    rw [symCount_cons] at h
    have h1 : symCountSubs subs sym = 0 := by omega
    have h2 : symCount rest sym = 0 := by omega
    obtain ⟨hrem, hfil⟩ := removeFirstSym_of_countZero subs sym h1
    obtain ⟨ihrem, ihfil⟩ := ih h2
    constructor
    · simp [unsubSymTopics, hrem, ihrem]
    · rw [filterOutSym_cons, hfil, ihfil]

/-- When the symbol occurs exactly once, the scan removes exactly that
subscription: the result is the filtered registry, and it reports `true`. -/
theorem unsubSymTopics_countOne (sym : Nat) :
    ∀ m : TopicMap, symCount m sym = 1 →
      unsubSymTopics m sym = (filterOutSym m sym, true) := by
  intro m
  induction m with
  | nil => intro h; simp [symCount] at h
  | cons e rest ih =>
    intro h
    obtain ⟨t, subs⟩ := e
    rw [symCount_cons] at h
    rcases Nat.eq_zero_or_pos (symCountSubs subs sym) with h1 | h1
    · have h2 : symCount rest sym = 1 := by omega
      obtain ⟨hrem, hfil⟩ := removeFirstSym_of_countZero subs sym h1
      rw [filterOutSym_cons, hfil]
      simp [unsubSymTopics, hrem, ih h2]
    · have h1e : symCountSubs subs sym = 1 := by omega
      have h2 : symCount rest sym = 0 := by omega
      have hrem := removeFirstSym_of_countOne subs sym h1e
      have hfil := (unsubSymTopics_countZero sym rest h2).2
      rw [filterOutSym_cons, hfil]
      simp [unsubSymTopics, hrem]

/-- Filtering a symbol out leaves no occurrence of it. -/
theorem symCount_filterOutSym (m : TopicMap) (sym : Nat) :
    symCount (filterOutSym m sym) sym = 0 := by
  induction m with
  | nil => rfl
  | cons e rest ih =>
    obtain ⟨t, subs⟩ := e
    rw [filterOutSym_cons, symCount_cons]
    have hz : symCountSubs (subs.filter (fun s => s.symbol != sym)) sym = 0 := by
      apply List.countP_eq_zero.mpr
      intro s hs
      simpa using (List.mem_filter.mp hs).2
    rw [hz, ih]

theorem allSubs_mono {P Q : Subscription → Prop} (h : ∀ s, P s → Q s)
    {m : TopicMap} (hm : AllSubs P m) : AllSubs Q m :=
  fun e he s hs => h s (hm e he s hs)

theorem allSubs_mapGet {P : Subscription → Prop} {m : TopicMap} {t : String}
    {subs : List Subscription} (hm : AllSubs P m)
    (hg : mapGet m t = some subs) : ∀ s ∈ subs, P s := by
  induction m with
  | nil => simp [mapGet] at hg
  | cons e rest ih =>
    obtain ⟨k, w⟩ := e
    by_cases hk : k = t
    · subst hk
      simp [mapGet] at hg
      have hw := hm (k, w) (by simp)
      intro s hs
      rw [← hg] at hs
      exact hw s hs
    · simp [mapGet, hk] at hg
      exact ih (fun e he s hs => hm e (by simp [he]) s hs) hg

theorem allSubs_mapSet {P : Subscription → Prop} {m : TopicMap} {t : String}
    {v : List Subscription} (hm : AllSubs P m) (hv : ∀ s ∈ v, P s) :
    AllSubs P (mapSet m t v) := by
  induction m with
  | nil =>
    intro e he s hs
    simp [mapSet] at he
    subst he
    exact hv s hs
  | cons e2 rest ih =>
    obtain ⟨k, w⟩ := e2
    by_cases hk : k = t
    · intro e he s hs
      simp [mapSet, hk] at he
      rcases he with he | he
      · subst he
        exact hv s hs
      · exact hm e (by simp [he]) s hs
    · intro e he s hs
      simp [mapSet, hk] at he
      rcases he with he | he
      · subst he
        exact hm (k, w) (by simp) s hs
      · exact ih (fun e2 he2 s2 hs2 => hm e2 (by simp [he2]) s2 hs2) e he s hs

theorem allSubs_ensureTopic {P : Subscription → Prop} {r : PubSub} {t : String}
    (hm : AllSubs P r.topics) : AllSubs P (ensureTopic r t).topics := by
  unfold ensureTopic
  by_cases hg : (mapGet r.topics t).isSome
  · simpa [hg] using hm
  · simp only [hg, if_false, Bool.false_eq_true]
    exact allSubs_mapSet hm (by simp)

theorem allSubs_unsubscribeHandlerCore {P : Subscription → Prop} {r : PubSub}
    (t : String) (h : Nat) (hm : AllSubs P r.topics) :
    AllSubs P (unsubscribeHandlerCore r t h).1.topics := by
  cases hg : mapGet r.topics t with
  | none => simpa [unsubscribeHandlerCore, hg] using hm
  | some subs =>
    cases hr : removeFirstHandler subs h with
    | none => simpa [unsubscribeHandlerCore, hg, hr] using hm
    | some subs2 =>
      have hsub : ∀ s ∈ subs, P s := allSubs_mapGet hm hg
      simp only [unsubscribeHandlerCore, hg, hr]
      exact allSubs_mapSet hm
        (fun s hs => hsub s (mem_of_mem_removeFirstHandler hr s hs))

theorem allSubs_unsubSymTopics {P : Subscription → Prop} (sym : Nat) :
    ∀ m : TopicMap, AllSubs P m → AllSubs P (unsubSymTopics m sym).1 := by
  intro m
  induction m with
  | nil => intro hm; exact hm
  | cons e rest ih =>
    intro hm
    obtain ⟨t, subs⟩ := e
    have hhead : ∀ s ∈ subs, P s := hm (t, subs) (by simp)
    have hrest : AllSubs P rest := fun e he s hs => hm e (by simp [he]) s hs
    cases hr : removeFirstSym subs sym with
    | some subs2 =>
      intro e he s hs
      simp [unsubSymTopics, hr] at he
      rcases he with he | he
      · subst he
        exact hhead s (mem_of_mem_removeFirstSym hr s hs)
      · exact hrest e he s hs
    | none =>
      intro e he s hs
      simp [unsubSymTopics, hr] at he
      rcases he with he | he
      · subst he
        exact hhead s hs
      · exact ih hrest e he s hs

theorem unsubscribeHandlerCore_nextSym (r : PubSub) (t : String) (h : Nat) :
    (unsubscribeHandlerCore r t h).1.nextSym = r.nextSym := by
  cases hg : mapGet r.topics t with
  | none => simp [unsubscribeHandlerCore, hg]
  | some subs =>
    cases hr : removeFirstHandler subs h with
    | none => simp [unsubscribeHandlerCore, hg, hr]
    | some subs2 => simp [unsubscribeHandlerCore, hg, hr]

/-- The `forEach` pass preserves any per-subscription property that survives
the decrement of a live budget. -/
theorem allSubs_publishLoop {P : Subscription → Prop}
    (hdec : ∀ s, P s → s.invocationsLeft.gtZero = true → P (decSub s))
    (throws : Nat → Bool) (t : String) (args : List JSVal) :
    ∀ (fuel k : Nat) (r : PubSub), AllSubs P r.topics →
      AllSubs P (publishLoop throws t args k fuel r).state.topics := by
  intro fuel
  induction fuel with
  | zero => intro k r hm; exact hm
  | succ fuel ih =>
    intro k r hm
    cases hq : ((mapGet r.topics t).getD [])[k]? with
    | none =>
      rw [publishLoop_step_skip throws t args k fuel r hq]
      exact ih _ _ hm
    | some sub =>
      have hg : mapGet r.topics t = some ((mapGet r.topics t).getD []) := by
        cases hgg : mapGet r.topics t with
        | none => rw [hgg] at hq; simp at hq
        | some subs => simp [hgg]
      have hsubs : ∀ s ∈ (mapGet r.topics t).getD [], P s := allSubs_mapGet hm hg
      have hsub : P sub := hsubs sub (List.getElem?_mem hq)
      by_cases hp : sub.invocationsLeft.gtZero = true
      · by_cases hthr : throws sub.handler = true
        · rw [publishLoop_step_throws throws t args k fuel r sub hq hp hthr]
          exact hm
        · rw [publishLoop_step_live throws t args k fuel r
            ⟨mapSet r.topics t (((mapGet r.topics t).getD []).set k
              { sub with invocationsLeft := sub.invocationsLeft.dec }), r.nextSym⟩
            sub hq hp (by simpa using hthr) rfl rfl]
          refine ih _ _ ?_
          refine allSubs_mapSet hm ?_
          intro s hs
          rcases List.mem_or_eq_of_mem_set hs with hs2 | hs2
          · exact hsubs s hs2
          · rw [hs2]
            exact hdec sub hsub hp
      · rw [publishLoop_step_exhausted throws t args k fuel r sub hq (by simpa using hp)]
        exact ih _ _ (allSubs_unsubscribeHandlerCore t sub.handler hm)

theorem publishLoop_nextSym (throws : Nat → Bool) (t : String) (args : List JSVal) :
    ∀ (fuel k : Nat) (r : PubSub),
      (publishLoop throws t args k fuel r).state.nextSym = r.nextSym := by
  intro fuel
  induction fuel with
  | zero => intro k r; rfl
  | succ fuel ih =>
    intro k r
    cases hq : ((mapGet r.topics t).getD [])[k]? with
    | none =>
      rw [publishLoop_step_skip throws t args k fuel r hq]
      exact ih _ _
    | some sub =>
      by_cases hp : sub.invocationsLeft.gtZero = true
      · by_cases hthr : throws sub.handler = true
        · rw [publishLoop_step_throws throws t args k fuel r sub hq hp hthr]
        · rw [publishLoop_step_live throws t args k fuel r
            ⟨mapSet r.topics t (((mapGet r.topics t).getD []).set k
              { sub with invocationsLeft := sub.invocationsLeft.dec }), r.nextSym⟩
            sub hq hp (by simpa using hthr) rfl rfl]
          exact ih _ _
      · rw [publishLoop_step_exhausted throws t args k fuel r sub hq (by simpa using hp)]
        rw [ih _ _]
        exact unsubscribeHandlerCore_nextSym r t sub.handler

theorem budgetOk_decSub (s : Subscription) (h : BudgetOk s)
    (hp : s.invocationsLeft.gtZero = true) : BudgetOk (decSub s) := by
  rcases h with h | h | ⟨q, hq, h0⟩
  · left
    simp [decSub, JNum.dec, h]
  · right
    left
    simp [decSub, JNum.dec, h]
  · right
    right
    refine ⟨q - 1, ?_, ?_⟩
    · simp [decSub, hq, JNum.dec]
    · rw [hq] at hp
      simp [JNum.gtZero] at hp
      linarith

theorem allSubs_subscribe {P : Subscription → Prop} (r : PubSub)
    (tv hv iv : JSVal) (hm : AllSubs P r.topics)
    (hnew : ∀ h : Nat, ∀ n : JNum, n.ltOne = false →
      (subscribe r tv hv iv).1.nextSym = r.nextSym + 1 → P ⟨r.nextSym, h, n⟩) :
    AllSubs P (subscribe r tv hv iv).1.topics := by
  cases tv with
  | str t =>
    by_cases ht : t.length = 0
    · simpa [subscribe, ht] using hm
    · cases hv with
      | fn h =>
        have hens : AllSubs P (ensureTopic r t).topics := allSubs_ensureTopic hm
        cases iv with
        | num n =>
          by_cases hn : n.ltOne
          · simpa [subscribe, ht, hn] using hens
          · simp only [subscribe, ht, if_neg ht, hn, Bool.false_eq_true, if_false]
            refine allSubs_mapSet hens ?_
            intro s hs
            rcases List.mem_append.mp hs with hs | hs
            · cases hg : mapGet (ensureTopic r t).topics t with
              | none => rw [hg] at hs; simp at hs
              | some subs0 =>
                rw [hg] at hs
                exact allSubs_mapGet hens hg s hs
            · have hsn : s = ⟨(ensureTopic r t).nextSym, h, n⟩ := by simpa using hs
              have hen : (ensureTopic r t).nextSym = r.nextSym := by
                unfold ensureTopic
                by_cases hg : (mapGet r.topics t).isSome <;> simp [hg]
              rw [hsn, hen]
              refine hnew h n (by simpa using hn) ?_
              have hen2 : (ensureTopic r t).nextSym = r.nextSym := by
                unfold ensureTopic
                by_cases hg : (mapGet r.topics t).isSome <;> simp [hg]
              simp [subscribe, ht, hn, hen2]
        | str s2 => simpa [subscribe, ht] using hens
        | fn f2 => simpa [subscribe, ht] using hens
        | sym s2 => simpa [subscribe, ht] using hens
        | undef => simpa [subscribe, ht] using hens
      | str s2 => simpa [subscribe, ht] using hm
      | num n2 => simpa [subscribe, ht] using hm
      | sym s2 => simpa [subscribe, ht] using hm
      | undef => simpa [subscribe, ht] using hm
  | num n => simpa [subscribe] using hm
  | fn h => simpa [subscribe] using hm
  | sym s2 => simpa [subscribe] using hm
  | undef => simpa [subscribe] using hm

theorem allSubs_publish {P : Subscription → Prop}
    (hdec : ∀ s, P s → s.invocationsLeft.gtZero = true → P (decSub s))
    (throws : Nat → Bool) (r : PubSub) (tv : JSVal) (args : List JSVal)
    (hm : AllSubs P r.topics) :
    AllSubs P (publish throws r tv args).state.topics := by
  cases tv with
  | str t =>
    by_cases ht : t.length = 0
    · simpa [publish, ht] using hm
    · cases hg : mapGet r.topics t with
      | none => simpa [publish, ht, hg] using hm
      | some subs =>
        by_cases hl : subs.length = 0
        · simpa [publish, ht, hg, hl] using hm
        · have hloop := allSubs_publishLoop hdec throws t args subs.length 0 r hm
          cases herr : (publishLoop throws t args 0 subs.length r).err with
          | none => simpa [publish, ht, hg, hl, herr] using hloop
          | some e => simpa [publish, ht, hg, hl, herr] using hloop
  | num n => simpa [publish] using hm
  | fn h => simpa [publish] using hm
  | sym s2 => simpa [publish] using hm
  | undef => simpa [publish] using hm

theorem allSubs_unsubscribe {P : Subscription → Prop} (r : PubSub)
    (args : List JSVal) (hm : AllSubs P r.topics) :
    AllSubs P (unsubscribe r args).1.topics := by
  match args with
  | [a] =>
    cases a with
    | sym sy =>
      simp only [unsubscribe, unsubscribeSymbol]
      exact allSubs_unsubSymTopics sy r.topics hm
    | str s2 => simpa [unsubscribe, unsubscribeSymbol] using hm
    | num n2 => simpa [unsubscribe, unsubscribeSymbol] using hm
    | fn f2 => simpa [unsubscribe, unsubscribeSymbol] using hm
    | undef => simpa [unsubscribe, unsubscribeSymbol] using hm
  | [a, b] =>
    cases a with
    | str t =>
      by_cases ht : t.length = 0
      · simpa [unsubscribe, unsubscribeHandler, ht] using hm
      · cases b with
        | fn h =>
          simp only [unsubscribe, unsubscribeHandler, ht, if_neg ht]
          exact allSubs_unsubscribeHandlerCore t h hm
        | str s2 => simpa [unsubscribe, unsubscribeHandler, ht] using hm
        | num n2 => simpa [unsubscribe, unsubscribeHandler, ht] using hm
        | sym s2 => simpa [unsubscribe, unsubscribeHandler, ht] using hm
        | undef => simpa [unsubscribe, unsubscribeHandler, ht] using hm
    | num n2 => simpa [unsubscribe, unsubscribeHandler] using hm
    | fn f2 => simpa [unsubscribe, unsubscribeHandler] using hm
    | sym s2 => simpa [unsubscribe, unsubscribeHandler] using hm
    | undef => simpa [unsubscribe, unsubscribeHandler] using hm
  | [] => simpa [unsubscribe] using hm
  | a :: b :: c :: rest => simpa [unsubscribe] using hm

/-- Every reachable registry stores only subscriptions whose budget satisfies
`BudgetOk`: `Infinity`, `NaN`, or a finite value strictly above `-1`. -/
theorem reach_budgetOk (r : PubSub) (h : Reach r) : AllSubs BudgetOk r.topics := by
  induction h with
  | init => intro e he s hs; simp [PubSub.empty] at he
  | sub r tv hv iv h ih =>
    refine allSubs_subscribe r tv hv iv ih ?_
    intro h2 n hn hsucc
    cases n with
    | inf => left; rfl
    | nan => right; left; rfl
    | negInf => simp [JNum.ltOne] at hn
    | fin q =>
      right
      right
      refine ⟨q, rfl, ?_⟩
      simp [JNum.ltOne] at hn
      linarith
  | pub r throws tv args h ih => exact allSubs_publish budgetOk_decSub throws r tv args ih
  | unsub r args h ih => exact allSubs_unsubscribe r args ih

theorem subscribe_nextSym_le (r : PubSub) (tv hv iv : JSVal) :
    r.nextSym ≤ (subscribe r tv hv iv).1.nextSym := by
  have hen : ∀ t, (ensureTopic r t).nextSym = r.nextSym := by
    intro t
    unfold ensureTopic
    by_cases hg : (mapGet r.topics t).isSome <;> simp [hg]
  cases tv with
  | str t =>
    by_cases ht : t.length = 0
    · simp [subscribe, ht]
    · cases hv with
      | fn h =>
        cases iv with
        | num n =>
          by_cases hn : n.ltOne <;> simp [subscribe, ht, hn, hen]
        | str s2 => simp [subscribe, ht, hen]
        | fn f2 => simp [subscribe, ht, hen]
        | sym s2 => simp [subscribe, ht, hen]
        | undef => simp [subscribe, ht, hen]
      | str s2 => simp [subscribe, ht]
      | num n2 => simp [subscribe, ht]
      | sym s2 => simp [subscribe, ht]
      | undef => simp [subscribe, ht]
  | num n => simp [subscribe]
  | fn h => simp [subscribe]
  | sym s2 => simp [subscribe]
  | undef => simp [subscribe]

theorem publish_state_nextSym (throws : Nat → Bool) (r : PubSub) (tv : JSVal)
    (args : List JSVal) : (publish throws r tv args).state.nextSym = r.nextSym := by
  cases tv with
  | str t =>
    by_cases ht : t.length = 0
    · simp [publish, ht]
    · cases hg : mapGet r.topics t with
      | none => simp [publish, ht, hg]
      | some subs =>
        by_cases hl : subs.length = 0
        · simp [publish, ht, hg, hl]
        · have hns := publishLoop_nextSym throws t args subs.length 0 r
          cases herr : (publishLoop throws t args 0 subs.length r).err with
          | none => simpa [publish, ht, hg, hl, herr] using hns
          | some e => simpa [publish, ht, hg, hl, herr] using hns
  | num n => simp [publish]
  | fn h => simp [publish]
  | sym s2 => simp [publish]
  | undef => simp [publish]

theorem unsubscribe_nextSym (r : PubSub) (args : List JSVal) :
    (unsubscribe r args).1.nextSym = r.nextSym := by
  match args with
  | [a] =>
    cases a with
    | sym sy => simp [unsubscribe, unsubscribeSymbol]
    | str s2 => simp [unsubscribe, unsubscribeSymbol]
    | num n2 => simp [unsubscribe, unsubscribeSymbol]
    | fn f2 => simp [unsubscribe, unsubscribeSymbol]
    | undef => simp [unsubscribe, unsubscribeSymbol]
  | [a, b] =>
    cases a with
    | str t =>
      by_cases ht : t.length = 0
      · simp [unsubscribe, unsubscribeHandler, ht]
      · cases b with
        | fn h =>
          simpa [unsubscribe, unsubscribeHandler, ht] using
            unsubscribeHandlerCore_nextSym r t h
        | str s2 => simp [unsubscribe, unsubscribeHandler, ht]
        | num n2 => simp [unsubscribe, unsubscribeHandler, ht]
        | sym s2 => simp [unsubscribe, unsubscribeHandler, ht]
        | undef => simp [unsubscribe, unsubscribeHandler, ht]
    | num n2 => simp [unsubscribe, unsubscribeHandler]
    | fn f2 => simp [unsubscribe, unsubscribeHandler]
    | sym s2 => simp [unsubscribe, unsubscribeHandler]
    | undef => simp [unsubscribe, unsubscribeHandler]
  | [] => simp [unsubscribe]
  | a :: b :: c :: rest => simp [unsubscribe]

/-- Every symbol stored in a reachable registry is below the registry's fresh
counter (so symbols are unique and never reused). -/
theorem reach_symLt (r : PubSub) (h : Reach r) :
    AllSubs (fun s => s.symbol < r.nextSym) r.topics := by
  induction h with
  | init => intro e he s hs; simp [PubSub.empty] at he
  | sub r tv hv iv h ih =>
    have hle := subscribe_nextSym_le r tv hv iv
    refine allSubs_subscribe r tv hv iv ?_ ?_
    · exact allSubs_mono (fun s hs => lt_of_lt_of_le hs hle) ih
    · intro h2 n hn hsucc
      simp only [hsucc]
      omega
  | pub r throws tv args h ih =>
    have hns := publish_state_nextSym throws r tv args
    simp only [hns]
    exact allSubs_publish (fun s hs hp => hs) throws r tv args ih
  | unsub r args h ih =>
    have hns := unsubscribe_nextSym r args
    simp only [hns]
    exact allSubs_unsubscribe r args ih

theorem ensureTopic_mapGet (r : PubSub) (t : String) :
    mapGet (ensureTopic r t).topics t = some ((mapGet r.topics t).getD []) := by
  unfold ensureTopic
  cases hg : mapGet r.topics t with
  | none => simp [hg, mapGet_mapSet_self]
  | some v => simp [hg]

theorem symCountSubs_eq_zero_of_bound (subs : List Subscription) (n : Nat)
    (h : ∀ s ∈ subs, s.symbol < n) : symCountSubs subs n = 0 := by
  apply List.countP_eq_zero.mpr
  intro s hs
  have := h s hs
  simp only [beq_iff_eq]
  omega

theorem symCount_eq_zero_of_bound (m : TopicMap) (n : Nat)
    (h : AllSubs (fun s => s.symbol < n) m) : symCount m n = 0 := by
  induction m with
  | nil => rfl
  | cons e rest ih =>
    obtain ⟨t, subs⟩ := e
    rw [symCount_cons]
    rw [symCountSubs_eq_zero_of_bound subs n (h (t, subs) (by simp))]
    rw [ih (fun e he s hs => h e (by simp [he]) s hs)]

theorem symCount_mapSet_of_zero (m : TopicMap) (t : String)
    (v : List Subscription) (sym : Nat) (h : symCount m sym = 0) :
    symCount (mapSet m t v) sym = symCountSubs v sym := by
  induction m with
  | nil => simp [mapSet, symCount]
  | cons e rest ih =>
    obtain ⟨k, w⟩ := e
    rw [symCount_cons] at h
    by_cases hk : k = t
    · subst hk
      have hms : mapSet ((k, w) :: rest) k v = (k, v) :: rest := by
        simp [mapSet]
      rw [hms, symCount_cons]
      omega
    · have hms : mapSet ((k, w) :: rest) t v = (k, w) :: mapSet rest t v := by
        simp [mapSet, hk]
      rw [hms, symCount_cons]
      have := ih (by omega)
      omega

/-- A successful `subscribe` succeeds only on fully valid arguments, returns
the freshly minted symbol, and appends the new subscription to the topic's
array. -/
theorem subscribe_ok_shape (r : PubSub) (tv hv iv : JSVal) (sy : Nat)
    (hok : (subscribe r tv hv iv).2 = .ok sy) :
    ∃ (t : String) (h : Nat) (n : JNum), tv = .str t ∧ t.length ≠ 0 ∧
      hv = .fn h ∧ iv = .num n ∧ n.ltOne = false ∧ sy = r.nextSym ∧
      (subscribe r tv hv iv).1.topics =
        mapSet (ensureTopic r t).topics t
          (((mapGet (ensureTopic r t).topics t).getD []) ++ [⟨r.nextSym, h, n⟩]) ∧
      (subscribe r tv hv iv).1.nextSym = r.nextSym + 1 := by
  cases tv with
  | str t =>
    by_cases ht : t.length = 0
    · simp [subscribe, ht] at hok
    · cases hv with
      | fn h =>
        have hen : (ensureTopic r t).nextSym = r.nextSym := by
          unfold ensureTopic
          by_cases hg : (mapGet r.topics t).isSome <;> simp [hg]
        cases iv with
        | num n =>
          by_cases hn : n.ltOne
          · simp [subscribe, ht, hn] at hok
          · have hsy : sy = r.nextSym := by
              have := hok
              simp [subscribe, ht, hn, hen] at this
              omega
            refine ⟨t, h, n, rfl, ht, rfl, rfl, by simpa using hn, hsy, ?_, ?_⟩
            · simp [subscribe, ht, hn, hen]
            · simp [subscribe, ht, hn, hen]
        | str s2 => simp [subscribe, ht] at hok
        | fn f2 => simp [subscribe, ht] at hok
        | sym s2 => simp [subscribe, ht] at hok
        | undef => simp [subscribe, ht] at hok
      | str s2 => simp [subscribe, ht] at hok
      | num n2 => simp [subscribe, ht] at hok
      | sym s2 => simp [subscribe, ht] at hok
      | undef => simp [subscribe, ht] at hok
  | num n => simp [subscribe] at hok
  | fn h => simp [subscribe] at hok
  | sym s2 => simp [subscribe] at hok
  | undef => simp [subscribe] at hok

/-- After a successful `subscribe` on a registry whose stored symbols are all
below the fresh counter, the returned symbol identifies exactly one
subscription. -/
theorem subscribe_fresh_symCount (r : PubSub) (tv hv iv : JSVal) (sy : Nat)
    (hlt : AllSubs (fun s => s.symbol < r.nextSym) r.topics)
    (hok : (subscribe r tv hv iv).2 = .ok sy) :
    symCount (subscribe r tv hv iv).1.topics sy = 1 := by
  obtain ⟨t, h, n, htv, ht, hhv, hiv, hn, hsy, htopics, hnext⟩ :=
    subscribe_ok_shape r tv hv iv sy hok
  have hens : AllSubs (fun s => s.symbol < r.nextSym) (ensureTopic r t).topics :=
    allSubs_ensureTopic hlt
  have hzero : symCount (ensureTopic r t).topics r.nextSym = 0 :=
    symCount_eq_zero_of_bound _ _ hens
  have hsubs0 : ∀ s ∈ (mapGet (ensureTopic r t).topics t).getD [],
      s.symbol < r.nextSym := by
    rw [ensureTopic_mapGet]
    exact allSubs_mapGet hens (ensureTopic_mapGet r t)
  rw [htopics, hsy]
  rw [symCount_mapSet_of_zero _ _ _ _ hzero]
  have h0 : symCountSubs ((mapGet (ensureTopic r t).topics t).getD []) r.nextSym = 0 :=
    symCountSubs_eq_zero_of_bound _ _ hsubs0
  simp [symCountSubs, List.countP_append] at h0 ⊢
  simpa [symCountSubs] using h0

theorem unsubSymTopics_frame (sym : Nat) :
    ∀ m : TopicMap,
      ((unsubSymTopics m sym).2 = false → (unsubSymTopics m sym).1 = m) ∧
      ((unsubSymTopics m sym).2 = true → RemovesOne m (unsubSymTopics m sym).1) := by
  intro m
  induction m with
  | nil => exact ⟨fun _ => rfl, fun h => by simp [unsubSymTopics] at h⟩
  | cons e rest ih =>
    obtain ⟨t, subs⟩ := e
    cases hr : removeFirstSym subs sym with
    | some subs2 =>
      constructor
      · intro h
        simp [unsubSymTopics, hr] at h
      · intro h
        obtain ⟨pre, s, post, hsubs, hsubs2, -, -⟩ :=
          removeFirstSym_eq_some subs subs2 sym hr
        exact ⟨[], rest, t, pre, s, post, by simp [hsubs],
          by simp [unsubSymTopics, hr, hsubs2]⟩
    | none =>
      constructor
      · intro h
        simp only [unsubSymTopics, hr] at h ⊢
        rw [(ih.1 h)]
      · intro h
        simp only [unsubSymTopics, hr] at h ⊢
        obtain ⟨ps, qs, t2, pre, s, post, hm, hm2⟩ := ih.2 h
        exact ⟨(t, subs) :: ps, qs, t2, pre, s, post, by simp [hm],
          by simp [hm2]⟩

theorem unsubscribeHandlerCore_frame (r : PubSub) (t : String) (h : Nat) :
    ((unsubscribeHandlerCore r t h).2 = false →
      (unsubscribeHandlerCore r t h).1 = r) ∧
    ((unsubscribeHandlerCore r t h).2 = true →
      RemovesOne r.topics (unsubscribeHandlerCore r t h).1.topics) := by
  cases hg : mapGet r.topics t with
  | none =>
    constructor
    · intro _; simp [unsubscribeHandlerCore, hg]
    · intro hh; simp [unsubscribeHandlerCore, hg] at hh
  | some subs =>
    cases hr : removeFirstHandler subs h with
    | none =>
      constructor
      · intro _; simp [unsubscribeHandlerCore, hg, hr]
      · intro hh; simp [unsubscribeHandlerCore, hg, hr] at hh
    | some subs2 =>
      constructor
      · intro hh; simp [unsubscribeHandlerCore, hg, hr] at hh
      · intro _
        obtain ⟨pre, s, post, hsubs, hsubs2, -, -⟩ :=
          removeFirstHandler_eq_some subs subs2 h hr
        obtain ⟨ps, qs, hm, hps, hset⟩ := mapGet_split r.topics t subs hg
        refine ⟨ps, qs, t, pre, s, post, by rw [hm, hsubs], ?_⟩
        simp only [unsubscribeHandlerCore, hg, hr]
        rw [hset subs2, hsubs2]

/-- **C1** (failing-input evidence): the claim — during one publish pass every
subscription with a positive or unbounded budget at the start of the call is
invoked exactly once, in order, even when exhausted subscriptions are removed
from the same sequence — fails on the code.  In the reachable state `rA3`
(obtained by `subscribe('a', h0, 1)`, `subscribe('a', h1, 2)`,
`publish('a', 42)`), topic `'a'` holds an exhausted subscription followed by a
live one with budget `1`.  The second publish removes the exhausted entry
mid-`forEach` via `unsubscribeHandler`, the array shifts, and `forEach` skips
the live subscription: the call returns `true` having invoked no handler at
all. -/
theorem claim_C1_publish_skips_live_subscription :
    mapGet rA3.topics "a" = some [⟨0, 0, .fin 0⟩, ⟨1, 1, .fin 1⟩] ∧
    JNum.gtZero (.fin 1) = true ∧
    pubA2.result = .ok true ∧ pubA2.trace = [] := by decide

/-- **C2** (failing-input evidence): the claim — a subscription with finite
budget `N ≥ 1` is invoked on each of the first `N` publishes, holds counter
`0` after the `N`-th, and is removed on the `(N+1)`-th — fails on the code.
The subscription with handler `1` is created with budget `2` on topic `'a'`;
the first publish invokes it, but the second does not (the removal of the
exhausted neighbour shifts the array under `forEach`), and after two publishes
it still holds counter `1`, not `0`. -/
theorem claim_C2_budget_not_honored :
    (subscribe rA1 (.str "a") (.fn 1) (.num (.fin 2))).2 = .ok 1 ∧
    pubA1.trace = [⟨0, [.num (.fin 42)]⟩, ⟨1, [.num (.fin 42)]⟩] ∧
    pubA2.trace = [] ∧
    mapGet pubA2.state.topics "a" = some [⟨1, 1, .fin 1⟩] := by decide

/-- **C8** (counterexample): the claim that every subscription present in a
reachable state has a positive or unbounded `invocationsLeft` is false twice
over.  First, after `subscribe('a', h0, 1)`, `subscribe('a', h1, 2)` and one
publish, the reachable state `rA3` still holds the first subscription with
counter `0` (neither positive nor unbounded).  Second, budgets are arbitrary
JS numbers: `subscribe('e', h4, 1.5)` is accepted, and after two publishes
the reachable state `rE3` holds that subscription with the strictly negative
counter `-1/2` (the second publish fires it because `1/2 > 0`, then stores
`1/2 - 1`). -/
theorem claim_C8_counterexample :
    (Reach rA3 ∧
      mapGet rA3.topics "a" = some [⟨0, 0, .fin 0⟩, ⟨1, 1, .fin 1⟩] ∧
      JNum.gtZero (.fin 0) = false ∧ JNum.fin 0 ≠ JNum.inf) ∧
    (Reach rE3 ∧
      mapGet rE3.topics "e" = some [⟨0, 4, .fin (-(1/2))⟩] ∧
      ((-(1/2) : ℚ) < 0)) :=
  ⟨⟨Reach.pub rA2 noThrow (.str "a") [.num (.fin 42)]
      (Reach.sub rA1 (.str "a") (.fn 1) (.num (.fin 2))
        (Reach.sub PubSub.empty (.str "a") (.fn 0) (.num (.fin 1)) Reach.init)),
    by decide, by decide, by decide⟩,
   ⟨Reach.pub rE2 noThrow (.str "e") []
      (Reach.pub rE1 noThrow (.str "e") []
        (Reach.sub PubSub.empty (.str "e") (.fn 4) (.num (.fin (3/2)))
          Reach.init)),
    by decide, by decide⟩⟩

/-- **C8** (amended): in every reachable registry state, every subscription
present in a topic's sequence has an `invocationsLeft` that is `Infinity`,
`NaN` (accepted at construction because `NaN < 1` is `false`, and never
decremented because `NaN > 0` is also `false`), or a finite value strictly
greater than `-1`.  A counter can thus be `0`, or even a fractional negative
value such as `-1/2` from a budget of `1.5` (the subscription then stays
until the next publish attempt at its position), but never `-1` or below. -/
theorem claim_C8_amended_nonneg (r : PubSub) (h : Reach r) :
    AllSubs BudgetOk r.topics :=
  reach_budgetOk r h

/-- Witness for `claim_C8_amended_nonneg` at the concrete reachable state
`rA3`. -/
theorem claim_C8_amended_nonneg_witness : AllSubs BudgetOk rA3.topics :=
  claim_C8_amended_nonneg rA3
    (Reach.pub rA2 noThrow (.str "a") [.num (.fin 42)]
      (Reach.sub rA1 (.str "a") (.fn 1) (.num (.fin 2))
        (Reach.sub PubSub.empty (.str "a") (.fn 0) (.num (.fin 1)) Reach.init)))

/-- **C3**: for a valid topic, `publish` returns `false` exactly when the
topic has no array or an empty one at call time (for any handler behaviour);
it returns `true` whenever at least one subscription is present — with
non-throwing handlers always, and even for arbitrary handler behaviour when
every present subscription is exhausted (in which case no handler is
invoked). -/
theorem claim_C3_publish_result (t : String) (args : List JSVal) (r : PubSub)
    (subs : List Subscription) (ht : t.length ≠ 0) :
    (∀ throws : Nat → Bool,
      ((publish throws r (.str t) args).result = .ok false ↔
        mapGet r.topics t = none ∨ mapGet r.topics t = some [])) ∧
    (mapGet r.topics t = some subs → subs ≠ [] →
      (publish noThrow r (.str t) args).result = .ok true) ∧
    (mapGet r.topics t = some subs → subs ≠ [] →
      (∀ s ∈ subs, s.invocationsLeft.gtZero = false) →
      ∀ throws : Nat → Bool,
        (publish throws r (.str t) args).result = .ok true ∧
        (publish throws r (.str t) args).trace = []) := by
  refine ⟨?_, ?_, ?_⟩
  · intro throws
    constructor
    · intro hres
      cases hg : mapGet r.topics t with
      | none => exact Or.inl rfl
      | some subs2 =>
        by_cases hs : subs2 = []
        · exact Or.inr (by rw [hs])
        · exact absurd hres (publish_not_ok_false throws t args r subs2 ht hg hs)
    · intro hres
      rw [publish_no_subscribers throws t args r ht hres]
  · intro hget hne
    exact publish_present_true t args r subs ht hget hne
  · intro hget hne hex throws
    exact publish_exhausted_true throws t args r subs ht hget hne hex

/-- Witness for `claim_C3_publish_result`: on a fresh instance publishing to
`'a'` returns `false`; on `rA2` (two live subscriptions for `'a'`) it returns
`true`. -/
theorem claim_C3_publish_result_witness :
    (publish noThrow PubSub.empty (.str "a") []).result = .ok false ∧
    (publish noThrow rA2 (.str "a") []).result = .ok true := by
  constructor
  · exact ((claim_C3_publish_result "a" [] PubSub.empty [] (by decide)).1
      noThrow).mpr (Or.inl (by decide))
  · exact (claim_C3_publish_result "a" [] rA2
      [⟨0, 0, .fin 1⟩, ⟨1, 1, .fin 2⟩] (by decide)).2.1 (by decide) (by decide)

/-- **C5** (counterexample): the claim that the subscription removed when an
exhausted entry is encountered is that exhausted subscription itself is
false.  In `rB3` the topic `'b'` holds the unbounded subscription (symbol
`0`) and an exhausted duplicate of the same handler (symbol `1`); the next
publish encounters the exhausted one but removes the earlier, still-active
subscription instead — afterwards only the exhausted one (symbol `1`)
remains. -/
theorem claim_C5_counterexample :
    rB3.topics = [("b", [⟨0, 7, .inf⟩, ⟨1, 7, .fin 0⟩])] ∧
    JNum.gtZero (.fin 0) = false ∧ JNum.gtZero .inf = true ∧
    pubB2.state.topics = [("b", [⟨1, 7, .fin 0⟩])] ∧
    pubB2.trace = [⟨7, []⟩] := by decide

/-- **C5** (amended): during a publish pass, whenever the subscription
encountered at the current `forEach` index is exhausted, the subscription
removed from the topic's sequence is the FIRST subscription of that sequence
whose handler is identity-equal to the exhausted one's handler (`publish`
delegates the removal to `unsubscribeHandler`, which re-resolves by handler,
not by position or handle) — possibly an earlier, still-active duplicate
rather than the exhausted subscription itself.  Stated for an arbitrary
sequence split `pre ++ m :: post` in which `m` is the first handler match
(`pre` contains none): the pass continues at the next index on the state
whose sequence for the topic is exactly `pre ++ post`, with no invocation
recorded for this step and every other topic untouched. -/
theorem claim_C5_amended_removes_first_match (throws : Nat → Bool) (t : String)
    (args : List JSVal) (k fuel : Nat) (r : PubSub)
    (subs pre post : List Subscription) (sub m : Subscription)
    (hget : mapGet r.topics t = some subs)
    (hq : subs[k]? = some sub)
    (hexh : sub.invocationsLeft.gtZero = false)
    (hsplit : subs = pre ++ m :: post)
    (hm : m.handler = sub.handler)
    (hpre : ∀ x ∈ pre, x.handler ≠ sub.handler) :
    publishLoop throws t args k (fuel + 1) r =
      publishLoop throws t args (k + 1) fuel
        { r with topics := mapSet r.topics t (pre ++ post) } ∧
    mapGet (mapSet r.topics t (pre ++ post)) t = some (pre ++ post) ∧
    ∀ t2, t2 ≠ t →
      mapGet (mapSet r.topics t (pre ++ post)) t2 = mapGet r.topics t2 := by
  have hq2 : ((mapGet r.topics t).getD [])[k]? = some sub := by
    simpa [hget] using hq
  have hrem : removeFirstHandler subs sub.handler = some (pre ++ post) := by
    rw [hsplit]
    exact removeFirstHandler_of_first pre m post sub.handler hm hpre
  have hcore : unsubscribeHandlerCore r t sub.handler =
      ({ r with topics := mapSet r.topics t (pre ++ post) }, true) := by
    simp [unsubscribeHandlerCore, hget, hrem]
  have hstep := publishLoop_step_exhausted throws t args k fuel r sub hq2 hexh
  rw [hcore] at hstep
  exact ⟨hstep, mapGet_mapSet_self r.topics t (pre ++ post),
    fun t2 ht2 => mapGet_mapSet_ne r.topics t t2 (pre ++ post) ht2⟩

/-- Witness for `claim_C5_amended_removes_first_match` on `rD`: the exhausted
subscription sits at index `3` behind two still-active duplicates of its
handler; the removal splices out the FIRST duplicate (symbol `1`), leaving the
second duplicate and the exhausted entry in place and topic `'e2'`
untouched. -/
theorem claim_C5_amended_witness :
    publishLoop noThrow "d" [] 3 1 rD =
      publishLoop noThrow "d" [] 4 0
        { rD with topics := mapSet rD.topics "d" [⟨0, 3, .fin 5⟩, ⟨2, 7, .fin 4⟩, ⟨3, 7, .fin 0⟩] } ∧
    mapGet (mapSet rD.topics "d"
        [⟨0, 3, .fin 5⟩, ⟨2, 7, .fin 4⟩, ⟨3, 7, .fin 0⟩]) "e2" =
      mapGet rD.topics "e2" := by
  have h := claim_C5_amended_removes_first_match noThrow "d" [] 3 0 rD
    [⟨0, 3, .fin 5⟩, ⟨1, 7, .inf⟩, ⟨2, 7, .fin 4⟩, ⟨3, 7, .fin 0⟩]
    [⟨0, 3, .fin 5⟩] [⟨2, 7, .fin 4⟩, ⟨3, 7, .fin 0⟩]
    ⟨3, 7, .fin 0⟩ ⟨1, 7, .inf⟩
    (by decide) (by decide) (by decide) (by decide) rfl (by decide)
  exact ⟨h.1, h.2.2 "e2" (by decide)⟩

/-- **C4** (counterexample): the claim fails in two independent ways.
First, a failed call can change the map: `subscribe('c', h, 0)` on a fresh
instance throws the `invocationsLeft` `TypeError` but leaves behind a freshly
created empty array for topic `'c'` (the topic entry is created before the
`Subscription` constructor validates the budget).  Second, an invalid input
need not raise at all: `NaN` is a number that is not `>= 1`, yet
`subscribe('c', h, NaN)` succeeds — the constructor's check is
`!(invocationsLeft < 1)` and `NaN < 1` is `false` — and stores a
`NaN`-budget subscription. -/
theorem claim_C4_counterexample :
    ((subscribe PubSub.empty (.str "c") (.fn 0) (.num (.fin 0))).2 =
        .error (.typeError "invocationsLeft must by a number > 0") ∧
      (subscribe PubSub.empty (.str "c") (.fn 0) (.num (.fin 0))).1.topics =
        [("c", [])] ∧
      PubSub.empty.topics = [] ∧ ([("c", [])] : TopicMap) ≠ []) ∧
    (JNum.geOne .nan = false ∧
      (subscribe PubSub.empty (.str "c") (.fn 0) (.num .nan)).2 = .ok 0 ∧
      (subscribe PubSub.empty (.str "c") (.fn 0) (.num .nan)).1.topics =
        [("c", [⟨0, 0, .nan⟩])]) := by decide

/-- **C4** (amended): every invalid input rejected by the code raises a
`TypeError` and leaves the topic map unchanged, with two deviations from the
claim.  First, "invalid `invocationsLeft`" for the code means a non-number or
a number for which `x < 1` holds — NOT "not a number ≥ 1": `NaN < 1` is
`false`, so `subscribe` with `invocationsLeft = NaN` raises nothing, succeeds,
and appends a `NaN`-budget subscription (final conjunct).  Second, the
rejected-`invocationsLeft` call is not state-preserving: it leaves the topic
map equal to the one with the topic's (possibly freshly created, empty) array
ensured — unchanged when the topic already existed, one residual empty entry
when it did not. -/
theorem claim_C4_amended_errors (r : PubSub) (tv hv iv av : JSVal) (t : String)
    (hId : Nat) (args uargs : List JSVal) (throws : Nat → Bool) :
    (validTopic tv = false →
      subscribe r tv hv iv =
        (r, .error (.typeError "Topic must be a non empty string"))) ∧
    (validTopic tv = true → isFunctionVal hv = false →
      subscribe r tv hv iv =
        (r, .error (.typeError "Handler must be a function."))) ∧
    (t.length ≠ 0 → isFunctionVal hv = true → validInvocations iv = false →
      (subscribe r (.str t) hv iv).2 =
        .error (.typeError "invocationsLeft must by a number > 0") ∧
      (subscribe r (.str t) hv iv).1.topics = (ensureTopic r t).topics ∧
      ((mapGet r.topics t).isSome = true →
        (subscribe r (.str t) hv iv).1.topics = r.topics) ∧
      (mapGet r.topics t = none →
        (subscribe r (.str t) hv iv).1.topics = mapSet r.topics t [])) ∧
    (validTopic tv = false →
      publish throws r tv args =
        ⟨r, .error (.typeError "Topic must be a non empty string"), []⟩) ∧
    (isSymbolVal av = false →
      unsubscribeSymbol r av =
        (r, .error (.typeError "Argument must be a symbol"))) ∧
    (validTopic tv = false →
      unsubscribeHandler r tv hv =
        (r, .error (.typeError "Topic must be a non empty string"))) ∧
    (validTopic tv = true → isFunctionVal hv = false →
      unsubscribeHandler r tv hv =
        (r, .error (.typeError "Handler must be a function."))) ∧
    (uargs.length ≠ 1 → uargs.length ≠ 2 →
      unsubscribe r uargs =
        (r, .error (.typeError "Must pass 1 or 2 arguments"))) ∧
    (t.length ≠ 0 →
      JNum.geOne .nan = false ∧
      (subscribe r (.str t) (.fn hId) (.num .nan)).2 = .ok r.nextSym ∧
      (subscribe r (.str t) (.fn hId) (.num .nan)).1.topics =
        mapSet (ensureTopic r t).topics t
          (((mapGet (ensureTopic r t).topics t).getD []) ++
            [⟨r.nextSym, hId, .nan⟩])) := by
  refine ⟨?_, ?_, ?_, ?_, ?_, ?_, ?_, ?_, ?_⟩
  · intro h1
    cases tv with
    | str s2 =>
      have hs : s2.length = 0 := by simpa [validTopic] using h1
      simp [subscribe, hs]
    | num n2 => simp [subscribe]
    | fn f2 => simp [subscribe]
    | sym y2 => simp [subscribe]
    | undef => simp [subscribe]
  · intro h1 h2
    cases tv with
    | str s2 =>
      have hs : s2.length ≠ 0 := by simpa [validTopic] using h1
      cases hv with
      | fn f2 => simp [isFunctionVal] at h2
      | str y2 => simp [subscribe, hs]
      | num n2 => simp [subscribe, hs]
      | sym y2 => simp [subscribe, hs]
      | undef => simp [subscribe, hs]
    | num n2 => simp [validTopic] at h1
    | fn f2 => simp [validTopic] at h1
    | sym y2 => simp [validTopic] at h1
    | undef => simp [validTopic] at h1
  · intro ht h2 h3
    cases hv with
    | fn f2 =>
      cases iv with
      | num n =>
        have hn : n.ltOne = true := by simpa [validInvocations] using h3
        refine ⟨by simp [subscribe, ht, hn], by simp [subscribe, ht, hn], ?_, ?_⟩
        · intro hg
          simp [subscribe, ht, hn, ensureTopic, hg]
        · intro hg
          simp [subscribe, ht, hn, ensureTopic, hg]
      | str y2 =>
        refine ⟨by simp [subscribe, ht], by simp [subscribe, ht], ?_, ?_⟩
        · intro hg
          simp [subscribe, ht, ensureTopic, hg]
        · intro hg
          simp [subscribe, ht, ensureTopic, hg]
      | fn g2 =>
        refine ⟨by simp [subscribe, ht], by simp [subscribe, ht], ?_, ?_⟩
        · intro hg
          simp [subscribe, ht, ensureTopic, hg]
        · intro hg
          simp [subscribe, ht, ensureTopic, hg]
      | sym y2 =>
        refine ⟨by simp [subscribe, ht], by simp [subscribe, ht], ?_, ?_⟩
        · intro hg
          simp [subscribe, ht, ensureTopic, hg]
        · intro hg
          simp [subscribe, ht, ensureTopic, hg]
      | undef =>
        refine ⟨by simp [subscribe, ht], by simp [subscribe, ht], ?_, ?_⟩
        · intro hg
          simp [subscribe, ht, ensureTopic, hg]
        · intro hg
          simp [subscribe, ht, ensureTopic, hg]
    | str y2 => simp [isFunctionVal] at h2
    | num n2 => simp [isFunctionVal] at h2
    | sym y2 => simp [isFunctionVal] at h2
    | undef => simp [isFunctionVal] at h2
  · intro h1
    cases tv with
    | str s2 =>
      have hs : s2.length = 0 := by simpa [validTopic] using h1
      simp [publish, hs]
    | num n2 => simp [publish]
    | fn f2 => simp [publish]
    | sym y2 => simp [publish]
    | undef => simp [publish]
  · intro h1
    cases av with
    | sym y2 => simp [isSymbolVal] at h1
    | str y2 => simp [unsubscribeSymbol]
    | num n2 => simp [unsubscribeSymbol]
    | fn f2 => simp [unsubscribeSymbol]
    | undef => simp [unsubscribeSymbol]
  · intro h1
    cases tv with
    | str s2 =>
      have hs : s2.length = 0 := by simpa [validTopic] using h1
      simp [unsubscribeHandler, hs]
    | num n2 => simp [unsubscribeHandler]
    | fn f2 => simp [unsubscribeHandler]
    | sym y2 => simp [unsubscribeHandler]
    | undef => simp [unsubscribeHandler]
  · intro h1 h2
    cases tv with
    | str s2 =>
      have hs : s2.length ≠ 0 := by simpa [validTopic] using h1
      cases hv with
      | fn f2 => simp [isFunctionVal] at h2
      | str y2 => simp [unsubscribeHandler, hs]
      | num n2 => simp [unsubscribeHandler, hs]
      | sym y2 => simp [unsubscribeHandler, hs]
      | undef => simp [unsubscribeHandler, hs]
    | num n2 => simp [validTopic] at h1
    | fn f2 => simp [validTopic] at h1
    | sym y2 => simp [validTopic] at h1
    | undef => simp [validTopic] at h1
  · intro h1 h2
    match uargs with
    | [] => simp [unsubscribe]
    | [a] => exact absurd rfl h1
    | [a, b] => exact absurd rfl h2
    | a :: b :: c :: rest => simp [unsubscribe]
  · intro ht
    have hen : (ensureTopic r t).nextSym = r.nextSym := by
      unfold ensureTopic
      by_cases hg : (mapGet r.topics t).isSome <;> simp [hg]
    refine ⟨rfl, ?_, ?_⟩
    · simp [subscribe, ht, JNum.ltOne, hen]
    · simp [subscribe, ht, JNum.ltOne, hen]

/-- Witness for `claim_C4_amended_errors` at concrete inputs: three rejected
calls that leave `rA2` unchanged, the arity error, and the accepted
`invocationsLeft = NaN` call. -/
theorem claim_C4_amended_errors_witness :
    subscribe rA2 (.str "") (.fn 0) (.num .inf) =
      (rA2, .error (.typeError "Topic must be a non empty string")) ∧
    subscribe rA2 (.str "a") .undef (.num .inf) =
      (rA2, .error (.typeError "Handler must be a function.")) ∧
    (subscribe rA2 (.str "a") (.fn 3) (.num (.fin 0))).1.topics = rA2.topics ∧
    unsubscribe rA2 [] =
      (rA2, .error (.typeError "Must pass 1 or 2 arguments")) ∧
    (subscribe rA2 (.str "a") (.fn 3) (.num .nan)).2 = .ok 2 := by
  refine ⟨?_, ?_, ?_, ?_, ?_⟩
  · exact (claim_C4_amended_errors rA2 (.str "") (.fn 0) (.num .inf) .undef ("x")
      3 [] [] noThrow).1 (by decide)
  · exact (claim_C4_amended_errors rA2 (.str "a") .undef (.num .inf) .undef ("x")
      3 [] [] noThrow).2.1 (by decide) (by decide)
  · exact ((claim_C4_amended_errors rA2 (.str "a") (.fn 3) (.num (.fin 0))
      .undef ("a") 3 [] [] noThrow).2.2.1 (by decide) (by decide) (by decide)).2.2.1
      (by decide)
  · exact (claim_C4_amended_errors rA2 (.str "a") (.fn 3) (.num (.fin 0))
      .undef ("a") 3 [] [] noThrow).2.2.2.2.2.2.2.1 (by decide) (by decide)
  · exact ((claim_C4_amended_errors rA2 (.str "a") (.fn 3) (.num (.fin 0))
      .undef ("a") 3 [] [] noThrow).2.2.2.2.2.2.2.2 (by decide)).2.1

/-- **C6**: handle-based unsubscribe.  Symbols stored in reachable states are
strictly below the fresh counter (no reuse), a successful `subscribe` on such
a state leaves its returned handle on exactly one subscription, and
unsubscribing by a handle carried by exactly one subscription removes exactly
that subscription (every topic's array is left equal to itself minus the
handle's subscription, order preserved) and returns `true`; a repeated call
with the same handle, or a call with a handle nobody carries, returns `false`
and changes nothing. -/
theorem claim_C6_unsubscribe_by_handle (r : PubSub) (sym : Nat)
    (tv hv iv : JSVal) (sy : Nat) :
    (Reach r → AllSubs (fun s => s.symbol < r.nextSym) r.topics) ∧
    ((subscribe r tv hv iv).2 = .ok sy →
      AllSubs (fun s => s.symbol < r.nextSym) r.topics →
      symCount (subscribe r tv hv iv).1.topics sy = 1) ∧
    (symCount r.topics sym = 1 →
      (unsubscribeSymbol r (.sym sym)).2 = .ok true ∧
      (unsubscribeSymbol r (.sym sym)).1.topics = filterOutSym r.topics sym ∧
      unsubscribeSymbol (unsubscribeSymbol r (.sym sym)).1 (.sym sym) =
        ((unsubscribeSymbol r (.sym sym)).1, .ok false)) ∧
    (symCount r.topics sym = 0 →
      unsubscribeSymbol r (.sym sym) = (r, .ok false)) := by
  have hzeroCase : ∀ r2 : PubSub, symCount r2.topics sym = 0 →
      unsubscribeSymbol r2 (.sym sym) = (r2, .ok false) := by
    intro r2 h0
    obtain ⟨m, ns⟩ := r2
    obtain ⟨hrem, -⟩ := unsubSymTopics_countZero sym m h0
    simp [unsubscribeSymbol, hrem]
  refine ⟨reach_symLt r, ?_, ?_, hzeroCase r⟩
  · intro hok hlt
    exact subscribe_fresh_symCount r tv hv iv sy hlt hok
  · intro h1
    have hone := unsubSymTopics_countOne sym r.topics h1
    refine ⟨by simp [unsubscribeSymbol, hone], by simp [unsubscribeSymbol, hone], ?_⟩
    apply hzeroCase
    simp [unsubscribeSymbol, hone, symCount_filterOutSym]

/-- Witness for `claim_C6_unsubscribe_by_handle`: the first subscription on a
fresh instance gets handle `0` and carries it alone; on `rA2` unsubscribing
handle `0` succeeds; on a fresh instance handle `5` is carried by nobody and
unsubscribing it fails. -/
theorem claim_C6_witness :
    symCount (subscribe PubSub.empty (.str "a") (.fn 0) (.num .inf)).1.topics 0 = 1 ∧
    (unsubscribeSymbol rA2 (.sym 0)).2 = .ok true ∧
    unsubscribeSymbol PubSub.empty (.sym 5) = (PubSub.empty, .ok false) := by
  refine ⟨?_, ?_, ?_⟩
  · exact (claim_C6_unsubscribe_by_handle PubSub.empty 0 (.str "a") (.fn 0)
      (.num .inf) 0).2.1 (by decide) (by intro e he s hs; simp [PubSub.empty] at he)
  · exact ((claim_C6_unsubscribe_by_handle rA2 0 .undef .undef .undef 0).2.2.1
      (by decide)).1
  · exact (claim_C6_unsubscribe_by_handle PubSub.empty 5 .undef .undef .undef
      0).2.2.2 (by decide)

/-- **C7**: handler-based unsubscribe.  When the topic's array is
`pre ++ s :: post` with `s` the first subscription whose handler is
identity-equal to `h`, `unsubscribe(topic, h)` removes exactly `s` (the array
becomes `pre ++ post`, other topics untouched) and returns `true`; the
remaining subscriptions — including later duplicates of the same handler —
still fire in order on the next publish.  When no subscription of the topic
has the handler, or the topic has no array, it returns `false` and changes
nothing. -/
theorem claim_C7_unsubscribe_by_handler (r : PubSub) (t : String) (h : Nat)
    (pre post subs : List Subscription) (s : Subscription) (args : List JSVal)
    (ht : t.length ≠ 0) :
    (mapGet r.topics t = some (pre ++ s :: post) → s.handler = h →
      (∀ x ∈ pre, x.handler ≠ h) →
      unsubscribeHandler r (.str t) (.fn h) =
        ({ r with topics := mapSet r.topics t (pre ++ post) }, .ok true) ∧
      mapGet (unsubscribeHandler r (.str t) (.fn h)).1.topics t =
        some (pre ++ post) ∧
      (∀ t2, t2 ≠ t →
        mapGet (unsubscribeHandler r (.str t) (.fn h)).1.topics t2 =
          mapGet r.topics t2) ∧
      ((∀ x ∈ pre ++ post, x.invocationsLeft.gtZero = true) →
        (publish noThrow (unsubscribeHandler r (.str t) (.fn h)).1
          (.str t) args).trace =
          (pre ++ post).map (fun x => ⟨x.handler, args⟩))) ∧
    (mapGet r.topics t = some subs → (∀ x ∈ subs, x.handler ≠ h) →
      unsubscribeHandler r (.str t) (.fn h) = (r, .ok false)) ∧
    (mapGet r.topics t = none →
      unsubscribeHandler r (.str t) (.fn h) = (r, .ok false)) := by
  refine ⟨?_, ?_, ?_⟩
  · intro hget hs hpre
    have hu := unsubscribeHandler_first r t h pre post s ht hget hs hpre
    have hR : (unsubscribeHandler r (.str t) (.fn h)).1 =
        { r with topics := mapSet r.topics t (pre ++ post) } := by rw [hu]
    refine ⟨hu, ?_, ?_, ?_⟩
    · rw [hR]
      exact mapGet_mapSet_self r.topics t (pre ++ post)
    · intro t2 ht2
      rw [hR]
      exact mapGet_mapSet_ne r.topics t t2 (pre ++ post) ht2
    · intro hall
      rw [hR]
      by_cases hnil : pre ++ post = []
      · have hget2 : mapGet ({ r with topics := mapSet r.topics t (pre ++ post) } :
            PubSub).topics t = some [] := by
          rw [← hnil]
          exact mapGet_mapSet_self r.topics t (pre ++ post)
        rw [publish_no_subscribers noThrow t args _ ht (Or.inr hget2)]
        simp [hnil]
      · rw [publish_active noThrow t args
          { r with topics := mapSet r.topics t (pre ++ post) } (pre ++ post) ht
          (mapGet_mapSet_self r.topics t (pre ++ post)) hnil hall
          (fun x hx => rfl)]
  · intro hget hnm
    exact unsubscribeHandler_noMatch r t h subs ht hget hnm
  · intro hget
    exact unsubscribeHandler_noTopic r t h ht hget

/-- Witness for `claim_C7_unsubscribe_by_handler` on `rB2`, whose topic `'b'`
holds the same handler `7` twice: removal removes the first subscription only,
the later duplicate still fires on the next publish, and unsubscribing on a
topic with no array returns `false`. -/
theorem claim_C7_witness :
    unsubscribeHandler rB2 (.str "b") (.fn 7) =
      ({ rB2 with topics := mapSet rB2.topics "b" [⟨1, 7, .fin 1⟩] }, .ok true) ∧
    (publish noThrow (unsubscribeHandler rB2 (.str "b") (.fn 7)).1
      (.str "b") []).trace = [⟨7, []⟩] ∧
    unsubscribeHandler rB2 (.str "x") (.fn 7) = (rB2, .ok false) := by
  refine ⟨?_, ?_, ?_⟩
  · exact ((claim_C7_unsubscribe_by_handler rB2 "b" 7 [] [⟨1, 7, .fin 1⟩] []
      ⟨0, 7, .inf⟩ [] (by decide)).1 (by decide) rfl (by decide)).1
  · exact ((claim_C7_unsubscribe_by_handler rB2 "b" 7 [] [⟨1, 7, .fin 1⟩] []
      ⟨0, 7, .inf⟩ [] (by decide)).1 (by decide) rfl (by decide)).2.2.2
      (by decide)
  · exact (claim_C7_unsubscribe_by_handler rB2 "x" 7 [] [] [] ⟨0, 0, .inf⟩ []
      (by decide)).2.2 (by decide)

/-- **C9**: when a handler throws during a publish pass, the exception
propagates to the caller of `publish` (the call yields the error, not a
boolean), the subscriptions before it have fired and been decremented, the
throwing subscription's `invocationsLeft` is not decremented (the decrement
follows the call), and no subscription after it is invoked in that pass (the
trace ends with the throwing handler's call). -/
theorem claim_C9_handler_throws (throws : Nat → Bool) (r : PubSub) (t : String)
    (args : List JSVal) (pre post : List Subscription) (s : Subscription)
    (ht : t.length ≠ 0)
    (hget : mapGet r.topics t = some (pre ++ s :: post))
    (hpos : ∀ x ∈ pre, x.invocationsLeft.gtZero = true)
    (hthr : ∀ x ∈ pre, throws x.handler = false)
    (hsp : s.invocationsLeft.gtZero = true)
    (hst : throws s.handler = true) :
    (publish throws r (.str t) args).result = .error .handlerThrew ∧
    (publish throws r (.str t) args).trace =
      pre.map (fun x => ⟨x.handler, args⟩) ++ [⟨s.handler, args⟩] ∧
    mapGet (publish throws r (.str t) args).state.topics t =
      some (decAll pre ++ s :: post) := by
  have hloop := publishLoop_throw throws t args s post hsp hst pre [] r
    (by simpa using hget) hpos hthr
  simp only [List.length_nil, List.nil_append] at hloop
  have hlen : ¬(pre ++ s :: post).length = 0 := by simp
  simp only [List.length_append, List.length_cons] at hloop
  refine ⟨?_, ?_, ?_⟩ <;>
    simp [publish, ht, hget, hlen, hloop, mapGet_mapSet_self]

/-- Witness for `claim_C9_handler_throws` on `rC` with `throwsNine`. -/
theorem claim_C9_witness :
    (publish throwsNine rC (.str "t") [.undef]).result = .error .handlerThrew ∧
    (publish throwsNine rC (.str "t") [.undef]).trace =
      [⟨5, [.undef]⟩, ⟨9, [.undef]⟩] ∧
    mapGet (publish throwsNine rC (.str "t") [.undef]).state.topics "t" =
      some [⟨0, 5, .fin 1⟩, ⟨1, 9, .inf⟩, ⟨2, 6, .fin 1⟩] := by
  have h := claim_C9_handler_throws throwsNine rC "t" [.undef]
    [⟨0, 5, .fin 2⟩] [⟨2, 6, .fin 1⟩] ⟨1, 9, .inf⟩ (by decide) (by decide)
    (by decide) (by decide) (by decide) (by decide)
  exact ⟨h.1, h.2.1, h.2.2⟩

/-- **C10**: each single `unsubscribe` call (by handle or by topic and
handler) removes at most one subscription: when it returns `true` the topic
map is the old map with exactly one subscription spliced out of one topic's
array (every other entry and every other subscription, in the same relative
order, untouched, and the symbol counter unchanged); when it returns `false`
the state is exactly unchanged. -/
theorem claim_C10_unsubscribe_frame (r : PubSub) (args : List JSVal) :
    ((unsubscribe r args).2 = .ok false → (unsubscribe r args).1 = r) ∧
    ((unsubscribe r args).2 = .ok true →
      RemovesOne r.topics (unsubscribe r args).1.topics ∧
      (unsubscribe r args).1.nextSym = r.nextSym) := by
  match args with
  | [a] =>
    cases a with
    | sym sy =>
      constructor
      · intro hres
        have hb : (unsubSymTopics r.topics sy).2 = false := by
          simpa [unsubscribe, unsubscribeSymbol] using hres
        have h1 := (unsubSymTopics_frame sy r.topics).1 hb
        show ({ r with topics := (unsubSymTopics r.topics sy).1 } : PubSub) = r
        rw [h1]
      · intro hres
        have hb : (unsubSymTopics r.topics sy).2 = true := by
          simpa [unsubscribe, unsubscribeSymbol] using hres
        exact ⟨(unsubSymTopics_frame sy r.topics).2 hb, rfl⟩
    | str y2 => exact ⟨fun hh => by simp [unsubscribe, unsubscribeSymbol] at hh,
        fun hh => by simp [unsubscribe, unsubscribeSymbol] at hh⟩
    | num n2 => exact ⟨fun hh => by simp [unsubscribe, unsubscribeSymbol] at hh,
        fun hh => by simp [unsubscribe, unsubscribeSymbol] at hh⟩
    | fn f2 => exact ⟨fun hh => by simp [unsubscribe, unsubscribeSymbol] at hh,
        fun hh => by simp [unsubscribe, unsubscribeSymbol] at hh⟩
    | undef => exact ⟨fun hh => by simp [unsubscribe, unsubscribeSymbol] at hh,
        fun hh => by simp [unsubscribe, unsubscribeSymbol] at hh⟩
  | [a, b] =>
    cases a with
    | str t =>
      by_cases ht : t.length = 0
      · cases b with
        | str y2 => exact ⟨fun hh => by simp [unsubscribe, unsubscribeHandler, ht] at hh,
            fun hh => by simp [unsubscribe, unsubscribeHandler, ht] at hh⟩
        | num n2 => exact ⟨fun hh => by simp [unsubscribe, unsubscribeHandler, ht] at hh,
            fun hh => by simp [unsubscribe, unsubscribeHandler, ht] at hh⟩
        | fn f2 => exact ⟨fun hh => by simp [unsubscribe, unsubscribeHandler, ht] at hh,
            fun hh => by simp [unsubscribe, unsubscribeHandler, ht] at hh⟩
        | sym y2 => exact ⟨fun hh => by simp [unsubscribe, unsubscribeHandler, ht] at hh,
            fun hh => by simp [unsubscribe, unsubscribeHandler, ht] at hh⟩
        | undef => exact ⟨fun hh => by simp [unsubscribe, unsubscribeHandler, ht] at hh,
            fun hh => by simp [unsubscribe, unsubscribeHandler, ht] at hh⟩
      · cases b with
        | fn h2 =>
          have hu : unsubscribe r [.str t, .fn h2] =
              ((unsubscribeHandlerCore r t h2).1,
                .ok (unsubscribeHandlerCore r t h2).2) := by
            simp [unsubscribe, unsubscribeHandler, ht]
          constructor
          · intro hres
            have hb : (unsubscribeHandlerCore r t h2).2 = false := by
              simpa [hu] using hres
            rw [hu]
            exact (unsubscribeHandlerCore_frame r t h2).1 hb
          · intro hres
            have hb : (unsubscribeHandlerCore r t h2).2 = true := by
              simpa [hu] using hres
            rw [hu]
            exact ⟨(unsubscribeHandlerCore_frame r t h2).2 hb,
              unsubscribeHandlerCore_nextSym r t h2⟩
        | str y2 => exact ⟨fun hh => by simp [unsubscribe, unsubscribeHandler, ht] at hh,
            fun hh => by simp [unsubscribe, unsubscribeHandler, ht] at hh⟩
        | num n2 => exact ⟨fun hh => by simp [unsubscribe, unsubscribeHandler, ht] at hh,
            fun hh => by simp [unsubscribe, unsubscribeHandler, ht] at hh⟩
        | sym y2 => exact ⟨fun hh => by simp [unsubscribe, unsubscribeHandler, ht] at hh,
            fun hh => by simp [unsubscribe, unsubscribeHandler, ht] at hh⟩
        | undef => exact ⟨fun hh => by simp [unsubscribe, unsubscribeHandler, ht] at hh,
            fun hh => by simp [unsubscribe, unsubscribeHandler, ht] at hh⟩
    | num n2 => exact ⟨fun hh => by simp [unsubscribe, unsubscribeHandler] at hh,
        fun hh => by simp [unsubscribe, unsubscribeHandler] at hh⟩
    | fn f2 => exact ⟨fun hh => by simp [unsubscribe, unsubscribeHandler] at hh,
        fun hh => by simp [unsubscribe, unsubscribeHandler] at hh⟩
    | sym y2 => exact ⟨fun hh => by simp [unsubscribe, unsubscribeHandler] at hh,
        fun hh => by simp [unsubscribe, unsubscribeHandler] at hh⟩
    | undef => exact ⟨fun hh => by simp [unsubscribe, unsubscribeHandler] at hh,
        fun hh => by simp [unsubscribe, unsubscribeHandler] at hh⟩
  | [] => exact ⟨fun hh => by simp [unsubscribe] at hh,
      fun hh => by simp [unsubscribe] at hh⟩
  | a :: b :: c :: rest => exact ⟨fun hh => by simp [unsubscribe] at hh,
      fun hh => by simp [unsubscribe] at hh⟩

/-- Witness for `claim_C10_unsubscribe_frame`: a successful handle-based
removal on `rB2` removes exactly one subscription, and a failed handler-based
call on an unknown topic leaves the state untouched. -/
theorem claim_C10_witness :
    (RemovesOne rB2.topics (unsubscribe rB2 [.sym 0]).1.topics ∧
      (unsubscribe rB2 [.sym 0]).1.nextSym = rB2.nextSym) ∧
    (unsubscribe rB2 [.str "x", .fn 7]).1 = rB2 := by
  constructor
  · exact (claim_C10_unsubscribe_frame rB2 [.sym 0]).2 (by decide)
  · exact (claim_C10_unsubscribe_frame rB2 [.str "x", .fn 7]).1 (by decide)
